import Mathlib

/-!
# Inkscape: boundary runs, path command words, verbs and text editing

A shallow embedding of parts of `src/livarot/int-line.h`, `src/livarot/Path.h`,
`src/verbs.cpp`, `src/text-editing.cpp` and `src/inkscape-application.cpp`,
with the properties proved about them.

Conventions
* C `int` positions are integers; a `float` or `double` that is only stored, or
  that belongs to a part modelled from the spec, is a rational. A flags word is
  the natural number with its bits.
* A C string is the list of its characters; `unsigned` indices and counts are
  natural numbers.
* A pointer to an object of a document is the path of child indices that leads
  to it from the root; `NULL` is `none`. A function that would dereference
  `NULL` or fail an assertion gives `none`.
* Functions of libraries and of modules outside these sources are fields of an
  environment (`TextEnv`, `Layout`, `AppEnv`); the theorems hold for every
  environment.
-/

set_option autoImplicit false

namespace Inkscape

/-! ## `livarot/int-line.h` -/

/-- The boundary event of `int-line.h`, field for field. -/
structure int_ligne_bord where
  pos : Int
  start : Bool
  val : ℚ
  other : Int
  prev : Int
  next : Int
  deriving DecidableEq

namespace IntLigne

/-- Embedding of `IntLigne::CmpBord`: the comparison handed to `qsort`. -/
def CmpBord (d1 d2 : int_ligne_bord) : Int :=
  if d1.pos = d2.pos then
    if d1.start && !d2.start then 1
    else if !d1.start && d2.start then -1
    else 0
  else if d1.pos < d2.pos then -1 else 1

end IntLigne

/-! ## `livarot/Path.h` -/

/-- Path description commands (the first anonymous enum of `Path.h`). -/
def descr_moveto : Nat := 0
def descr_lineto : Nat := 1
def descr_cubicto : Nat := 2
def descr_bezierto : Nat := 3
def descr_arcto : Nat := 4
def descr_close : Nat := 5
def descr_interm_bezier : Nat := 6
def descr_forced : Nat := 7
def descr_type_mask : Nat := 15

/-- Flags for the path construction (`Path::descr_flags`). -/
def descr_ready : Nat := 0
def descr_adding_bezier : Nat := 1
def descr_doing_subpath : Nat := 2
def descr_delayed_bezier : Nat := 4
def descr_dirty : Nat := 16

/-- The eight command codes, in the order of the enum. -/
def descr_commands : List Nat :=
  [descr_moveto, descr_lineto, descr_cubicto, descr_bezierto, descr_arcto,
   descr_close, descr_interm_bezier, descr_forced]

/-! ### The path description and the polyline (`Path.h`) -/

/-- Polyline description commands (the second anonymous enum of `Path.h`). -/
def polyline_lineto : Nat := 0
def polyline_moveto : Nat := 1
def polyline_forced : Nat := 2

/-- The type `NR::Point`, with exact coordinates. -/
structure Point where
  x : ℚ
  y : ℚ
  deriving DecidableEq

/-- The data of a command: the structs `path_descr_moveto`, `path_descr_lineto`,
`path_descr_cubicto`, `path_descr_bezierto`, `path_descr_intermbezierto` and
`path_descr_arcto` of `Path.h`; `close` and `forced` have no data. -/
inductive path_descr_data where
  | moveto (p : Point)
  | lineto (p : Point)
  | cubicto (p stD enD : Point)
  | bezierto (p : Point) (nb : Int)
  | intermbezierto (p : Point)
  | arcto (p : Point) (rx ry angle : ℚ) (large clockwise : Bool)
  | close
  | forced
  deriving DecidableEq

/-- The struct `path_descr`; the data that `dStart` points to stands in its place. -/
structure path_descr where
  flags : Nat
  associated : Int
  tSt : ℚ
  tEn : ℚ
  data : path_descr_data
  deriving DecidableEq

/-- The struct `path_lineto`. -/
structure path_lineto where
  isMoveTo : Nat
  p : Point
  deriving DecidableEq

/-- The members of `Path` that hold the construction state, the description and
the polyline (the counts `descr_nb` and `nbPt` are the lengths of the lists). -/
structure Path where
  descr_flags : Nat
  pending_bezier_cmd : Int
  pending_bezier_data : Int
  pending_moveto_cmd : Int
  pending_moveto_data : Int
  descr_cmd : List path_descr
  pts : List path_lineto
  back : Bool
  deriving DecidableEq

/-- The control count of a `bezierto` command raised by one. -/
def add_control_point (cmd : path_descr) : path_descr :=
  match cmd.data with
  | .bezierto p nb => { cmd with data := .bezierto p (nb + 1) }
  | _ => cmd

/-- Modelled from the spec: `Path::IntermBezierTo` is declared in `Path.h` and
defined in `Path.cpp`, which is not among the sources. Section 4.1: the
construction calls "each append one command, validating current construction
state (e.g., `IntermBezierTo` fails if no bezier spline is pending)"; section 3:
a `bezierto` record carries the count of the `interm_bezier` records that follow
it. The result is the path afterwards and the number of the new command, `none`
where the call fails. -/
def Path.IntermBezierTo (path : Path) (ip : Point) : Path × Option Int :=
  if path.descr_flags &&& descr_adding_bezier = 0 then (path, none)
  else
    let cmd : path_descr :=
      { flags := descr_interm_bezier, associated := -1, tSt := 0, tEn := 1,
        data := .intermbezierto ip }
    let counted :=
      if 0 ≤ path.pending_bezier_cmd then
        path.descr_cmd.modify add_control_point path.pending_bezier_cmd.toNat
      else path.descr_cmd
    ({ path with descr_cmd := counted ++ [cmd] }, some (path.descr_cmd.length : Int))

/-- A cubic piece as `RecCubicTo` takes it: start, start tangent, end, end tangent. -/
structure CubicPiece where
  iS : Point
  iSd : Point
  iE : Point
  iEd : Point

/-- A quadratic piece as `RecBezierTo` takes it: control point, start, end. -/
structure BezierPiece where
  iPt : Point
  iS : Point
  iE : Point

/-- What the spec leaves open about `Convert` (section 9, open questions): the
flatness tests, which include the test against the maximum run length, the
bisections, the recursion-depth ceiling, the pieces of a spline with several
control points, and the points `DoArc` gives. -/
structure ConvertGeometry where
  lev : Nat
  cubic_flat : CubicPiece → ℚ → Bool
  cubic_bisect : CubicPiece → CubicPiece × CubicPiece
  bezier_flat : BezierPiece → ℚ → Bool
  bezier_bisect : BezierPiece → BezierPiece × BezierPiece
  spline_pieces : Point → List Point → Point → List BezierPiece
  DoArc : Point → Point → ℚ → ℚ → ℚ → Bool → Bool → ℚ → List Point

/-- Modelled from the spec: `Path::RecCubicTo` (defined in `Path.cpp`). Section 4.1:
cubics are "recursively bisected (`RecCubicTo`) until flatness error ... falls
under `tolerance`, or a recursion-depth ceiling is hit". The points between the
two ends of the piece. -/
def RecCubicTo (G : ConvertGeometry) (tresh : ℚ) : Nat → CubicPiece → List Point
  | 0, _ => []
  | lev + 1, piece =>
    if G.cubic_flat piece tresh then []
    else
      let halves := G.cubic_bisect piece
      RecCubicTo G tresh lev halves.1 ++ [halves.1.iE] ++ RecCubicTo G tresh lev halves.2

/-- Modelled from the spec: `Path::RecBezierTo` (defined in `Path.cpp`). Section 4.1:
quadratics take the "same recursive approach with their own basis evaluation". -/
def RecBezierTo (G : ConvertGeometry) (tresh : ℚ) : Nat → BezierPiece → List Point
  | 0, _ => []
  | lev + 1, piece =>
    if G.bezier_flat piece tresh then []
    else
      let halves := G.bezier_bisect piece
      RecBezierTo G tresh lev halves.1 ++ [halves.1.iE] ++ RecBezierTo G tresh lev halves.2

/-- The control points of the `interm_bezier` records among the commands. -/
def control_points (cmds : List path_descr) : List Point :=
  cmds.filterMap (fun cmd =>
    match cmd.data with
    | .intermbezierto p => some p
    | _ => none)

/-- A polyline point that is a plain `lineto`. -/
def line_point (p : Point) : path_lineto := ⟨polyline_lineto, p⟩

/-- Modelled from the spec: the points one command contributes to the polyline
in `Path::Convert` (section 4.1: lines are appended directly, cubics and
quadratics are bisected, arcs go through `DoArc`; section 3: a point is tagged
as the start of a contour or as a forced point). Given the current point, the
start of the contour and the commands that follow, the result is the points, the
current point and the start of the contour afterwards. -/
def convert_command (G : ConvertGeometry) (tresh : ℚ) (cur start : Point)
    (rest : List path_descr) : path_descr_data → List path_lineto × Point × Point
  | .moveto p => ([⟨polyline_moveto, p⟩], p, p)
  | .lineto p => ([line_point p], p, start)
  | .cubicto p stD enD =>
    ((RecCubicTo G tresh G.lev ⟨cur, stD, p, enD⟩).map line_point ++ [line_point p], p, start)
  | .bezierto p nb =>
    let pieces := G.spline_pieces cur (control_points (rest.take nb.toNat)) p
    ((pieces.map (fun piece =>
        (RecBezierTo G tresh G.lev piece).map line_point ++ [line_point piece.iE])).flatten
      ++ [line_point p], p, start)
  | .intermbezierto _ => ([], cur, start)
  | .arcto p rx ry angle large clockwise =>
    ((G.DoArc cur p rx ry angle large clockwise tresh).map line_point ++ [line_point p],
     p, start)
  | .close => ([line_point start], start, start)
  | .forced => ([⟨polyline_forced, cur⟩], cur, start)

/-- Modelled from the spec: the pass of `Path::Convert` over the commands, `nbPt`
points being in the polyline already. Each command gets as `associated` the index
of the point that ends its portion (`Path.h`, section 3). The result is the
commands and the points that were added. -/
def convert_commands (G : ConvertGeometry) (tresh : ℚ) :
    Nat → Point → Point → List path_descr → List path_descr × List path_lineto
  | _, _, _, [] => ([], [])
  | nbPt, cur, start, cmd :: rest =>
    let r := convert_command G tresh cur start rest cmd.data
    let done := convert_commands G tresh (nbPt + r.1.length) r.2.1 r.2.2 rest
    ({ cmd with associated := ((nbPt + r.1.length : Nat) : Int) - 1 } :: done.1, r.1 ++ done.2)

/-- Modelled from the spec: `Path::Convert` is declared in `Path.h` ("transforms a
description in a polyline") and defined in `Path.cpp`, which is not among the
sources. Section 2: a Path owns "a command list and, after conversion, the
derived Polyline"; section 5: `Convert` invalidates the polyline buffer, so the
polyline is built anew from the description. -/
def Path.Convert (G : ConvertGeometry) (treshhold : ℚ) (path : Path) : Path :=
  let r := convert_commands G treshhold 0 ⟨0, 0⟩ ⟨0, 0⟩ path.descr_cmd
  { path with descr_cmd := r.1, pts := r.2, back := false }

/-- Two descriptions with the same commands, but for the `associated` indices. -/
def same_commands : List path_descr → List path_descr → Prop
  | [], [] => True
  | a :: as, b :: bs =>
    a.flags = b.flags ∧ a.tSt = b.tSt ∧ a.tEn = b.tEn ∧ a.data = b.data ∧ same_commands as bs
  | _, _ => False

/-- A sample geometry: a piece counts as flat when its two ends have the same
abscissa or the tolerance is at least 1, a piece is cut at the middle of its
chord, a spline has one piece for each control point, and an arc gets the middle
of its chord. -/
def sample_geometry : ConvertGeometry :=
  { lev := 2
    cubic_flat := fun piece tresh => piece.iS.x = piece.iE.x || 1 ≤ tresh
    cubic_bisect := fun piece =>
      let m : Point := ⟨(piece.iS.x + piece.iE.x) / 2, (piece.iS.y + piece.iE.y) / 2⟩
      (⟨piece.iS, piece.iSd, m, piece.iEd⟩, ⟨m, piece.iSd, piece.iE, piece.iEd⟩)
    bezier_flat := fun piece tresh => piece.iS.x = piece.iE.x || 1 ≤ tresh
    bezier_bisect := fun piece =>
      let m : Point := ⟨(piece.iS.x + piece.iE.x) / 2, (piece.iS.y + piece.iE.y) / 2⟩
      (⟨piece.iPt, piece.iS, m⟩, ⟨piece.iPt, m, piece.iE⟩)
    spline_pieces := fun s controls e => controls.map (fun c => ⟨c, s, e⟩)
    DoArc := fun s e _ _ _ _ _ _ => [⟨(s.x + e.x) / 2, (s.y + e.y) / 2⟩] }

/-- A sample path: a contour with a line and a cubic, closed, with an old polyline
of one point left in it and a sub-path under construction. -/
def sample_path : Path :=
  { descr_flags := descr_doing_subpath
    pending_bezier_cmd := -1
    pending_bezier_data := -1
    pending_moveto_cmd := 0
    pending_moveto_data := 0
    descr_cmd :=
      [⟨descr_moveto, -1, 0, 1, .moveto ⟨0, 0⟩⟩,
       ⟨descr_lineto, -1, 0, 1, .lineto ⟨4, 0⟩⟩,
       ⟨descr_cubicto, -1, 0, 1, .cubicto ⟨8, 4⟩ ⟨1, 0⟩ ⟨0, 1⟩⟩,
       ⟨descr_close, -1, 0, 1, .close⟩]
    pts := [⟨polyline_moveto, ⟨9, 9⟩⟩]
    back := true }

/-! ## `verbs.cpp` -/

/-- The terminating NUL of a C string. -/
def NUL : Char := Char.ofNat 0

/-- The `for (si = 0 ; ; si++)` loop of `sp_action_get_title`. The first argument
is the memory at `src + si`, the second the part `ret[0..ri)` of the result
written so far. The loop is left only through the `return` at the NUL; memory
that ends without a NUL gives `none`. -/
def sp_action_get_title_loop : List Char → List Char → Option (List Char)
  | [], _ => none
  | c :: rest, ret =>
    if c ≠ '_' ∧ c ≠ '.' then
      if c = NUL then some (ret ++ [c])
      else sp_action_get_title_loop rest (ret ++ [c])
    else sp_action_get_title_loop rest ret

/-- Embedding of `sp_action_get_title`, given the memory at `action->name`. -/
def sp_action_get_title (src : List Char) : Option (List Char) :=
  sp_action_get_title_loop src []

/-! ## `text-editing.cpp`: the text object tree -/

/-- Embedding of `SPTSpan::role`. -/
inductive SPTSpanRole where
  | SP_TSPAN_ROLE_UNSPECIFIED
  | SP_TSPAN_ROLE_PARAGRAPH
  | SP_TSPAN_ROLE_LINE
  deriving DecidableEq, Repr

/-- The class of an object of a text tree that is not an `SPString`; the
`SP_IS_*` tests of `text-editing.cpp` tell these classes apart. -/
inductive SPObjectType where
  | SPText
  | SPTSpan
  | SPTextPath
  | SPFlowtext
  | SPFlowdiv
  | SPFlowtspan
  | SPFlowpara
  | SPFlowline
  | SPFlowregionbreak
  | SPFlowregion
  | SPFlowregionExclude
  | SPOther
  deriving DecidableEq, Repr

/-- The `x`, `y`, `dx`, `dy` and `rotate` vectors carried by text, tspan and
textPath objects. -/
structure TextTagAttributes where
  x : List ℚ
  y : List ℚ
  dx : List ℚ
  dy : List ℚ
  rotate : List ℚ
  deriving DecidableEq, Repr

/-- What an element of the tree carries besides its children: its class, the
tspan role, the positioning attributes, and the name and attributes of its XML
node. -/
structure SPObjectData where
  type : SPObjectType
  role : SPTSpanRole
  attributes : TextTagAttributes
  name : String
  attrs : List (String × String)
  deriving DecidableEq, Repr

/-- A text object tree. An `SPString` is built from an XML text node and has no
children. -/
inductive SPObject where
  | SPString (string : List Char)
  | element (data : SPObjectData) (children : List SPObject)
  deriving Repr

mutual
/-- Decidable equality of text object trees. -/
def SPObject.decEq : (a b : SPObject) → Decidable (a = b)
  | .SPString a, .SPString b =>
    if h : a = b then isTrue (by rw [h]) else isFalse (fun e => h (by cases e; rfl))
  | .element d cs, .element e ds =>
    if h : d = e then
      match SPObject.decEqList cs ds with
      | isTrue h2 => isTrue (by rw [h, h2])
      | isFalse h2 => isFalse (fun e => h2 (by cases e; rfl))
    else isFalse (fun e => h (by cases e; rfl))
  | .SPString _, .element _ _ => isFalse (fun e => by cases e)
  | .element _ _, .SPString _ => isFalse (fun e => by cases e)
/-- Decidable equality of lists of text object trees. -/
def SPObject.decEqList : (a b : List SPObject) → Decidable (a = b)
  | [], [] => isTrue rfl
  | a :: as, b :: bs =>
    match SPObject.decEq a b with
    | isTrue h1 =>
      match SPObject.decEqList as bs with
      | isTrue h2 => isTrue (by rw [h1, h2])
      | isFalse h2 => isFalse (fun e => h2 (by cases e; rfl))
    | isFalse h1 => isFalse (fun e => h1 (by cases e; rfl))
  | [], _ :: _ => isFalse (fun e => by cases e)
  | _ :: _, [] => isFalse (fun e => by cases e)
end

instance : DecidableEq SPObject := SPObject.decEq

/-- Embedding of `SP_IS_STRING`. -/
def SP_IS_STRING : SPObject → Bool
  | .SPString _ => true
  | .element _ _ => false

/-- Embedding of `is_line_break_object`. -/
def is_line_break_object : SPObject → Bool
  | .SPString _ => false
  | .element d _ =>
       d.type = .SPText
    || (d.type = .SPTSpan && d.role ≠ .SP_TSPAN_ROLE_UNSPECIFIED)
    || d.type = .SPTextPath
    || d.type = .SPFlowdiv
    || d.type = .SPFlowpara
    || d.type = .SPFlowline
    || d.type = .SPFlowregionbreak

mutual
/-- Embedding of `sp_text_get_length`. -/
def sp_text_get_length : SPObject → Nat
  | .SPString string => string.length
  | .element d children =>
    (if is_line_break_object (.element d children) then 1 else 0)
      + sp_text_get_length_children children
/-- The `for` loop of `sp_text_get_length` over the children, from `child` on. -/
def sp_text_get_length_children : List SPObject → Nat
  | [] => 0
  | child :: rest =>
    (match child with
      | .SPString string => string.length
      | .element d children => sp_text_get_length (.element d children))
      + sp_text_get_length_children rest
end

mutual
/-- The sum of the lengths of all `SPString`s at or below the object. -/
def sumStringLengths : SPObject → Nat
  | .SPString string => string.length
  | .element _ children => sumStringLengthsList children
/-- The sum of `sumStringLengths` over a list of objects. -/
def sumStringLengthsList : List SPObject → Nat
  | [] => 0
  | child :: rest => sumStringLengths child + sumStringLengthsList rest
end

mutual
/-- The number of objects at or below the object, itself included, that
`is_line_break_object` accepts. -/
def countLineBreaks : SPObject → Nat
  | .SPString _ => 0
  | .element d children =>
    (if is_line_break_object (.element d children) then 1 else 0) + countLineBreaksList children
/-- The sum of `countLineBreaks` over a list of objects. -/
def countLineBreaksList : List SPObject → Nat
  | [] => 0
  | child :: rest => countLineBreaks child + countLineBreaksList rest
end

/-! ### Pointers into the document tree -/

/-- A pointer to an object of the document: the child indices that lead to it
from the root of the document. -/
abbrev ObjPath := List Nat

/-- The children of an object, `firstChild()` first. -/
def SPObject.childList : SPObject → List SPObject
  | .SPString _ => []
  | .element _ children => children

/-- Embedding of `hasChildren()`. -/
def SPObject.hasChildren (object : SPObject) : Bool :=
  !object.childList.isEmpty

/-- The object a pointer designates; `none` for a pointer that designates nothing. -/
def getObject : SPObject → ObjPath → Option SPObject
  | object, [] => some object
  | object, i :: below =>
    match object.childList[i]? with
    | none => none
    | some child => getObject child below

/-- The document after the object designated by a pointer has been replaced by
its image under `f`. -/
def modifyObject (f : SPObject → SPObject) : SPObject → ObjPath → SPObject
  | object, [] => f object
  | .SPString string, _ :: _ => .SPString string
  | .element data children, i :: below =>
    match children[i]? with
    | none => .element data children
    | some child => .element data (children.set i (modifyObject f child below))

/-- Embedding of `SP_OBJECT_PARENT`; `none` is `NULL` (the root of the document). -/
def SP_OBJECT_PARENT (object : ObjPath) : Option ObjPath :=
  if object = [] then none else some object.dropLast

/-- Embedding of `SP_OBJECT_NEXT`; `none` is `NULL`. -/
def SP_OBJECT_NEXT (doc : SPObject) (object : ObjPath) : Option ObjPath :=
  match object.getLast? with
  | none => none
  | some i =>
    if (getObject doc (object.dropLast ++ [i + 1])).isSome
    then some (object.dropLast ++ [i + 1]) else none

/-- Embedding of `lastChild()` of the designated object; `none` is `NULL`. -/
def lastChild (doc : SPObject) (object : ObjPath) : Option ObjPath :=
  match getObject doc object with
  | none => none
  | some o => if o.childList.isEmpty then none else some (object ++ [o.childList.length - 1])

/-- Embedding of `attributes_for_object`. -/
def attributes_for_object : SPObject → Option TextTagAttributes
  | .SPString _ => none
  | .element d _ =>
    if d.type = .SPTSpan ∨ d.type = .SPText ∨ d.type = .SPTextPath then some d.attributes
    else none

/-- Assignment through the pointer returned by `attributes_for_object`. -/
def setAttributes (attributes : TextTagAttributes) : SPObject → SPObject
  | .SPString string => .SPString string
  | .element d children => .element { d with attributes := attributes } children

/-- Embedding of `sum_sibling_text_lengths_before`; `none` when the object has no parent
(the function dereferences the parent). -/
def sum_sibling_text_lengths_before (doc : SPObject) (item : ObjPath) : Option Nat :=
  match item.getLast?, getObject doc item.dropLast with
  | some i, some parent => some ((parent.childList.take i).map sp_text_get_length).sum
  | _, _ => none

/-- The pointer to the following sibling, for a pointer relative to a list of siblings. -/
def nextSibling : ObjPath → ObjPath
  | [] => []
  | k :: below => (k + 1) :: below

mutual
/-- One turn of the `while` loop of `sp_te_seek_next_string_recursive` on
`start_obj`: the search among its children, then the `SP_IS_STRING` test. The
result is relative to `start_obj`. -/
def sp_te_seek_next_string_in : SPObject → Option ObjPath
  | .SPString _ => some []
  | .element _ children => sp_te_seek_next_string_recursive children
/-- Embedding of `sp_te_seek_next_string_recursive`, given `start_obj` followed by its later
siblings; the result is relative to their parent (`0` is `start_obj`). -/
def sp_te_seek_next_string_recursive : List SPObject → Option ObjPath
  | [] => none
  | start_obj :: [] =>
    match sp_te_seek_next_string_in start_obj with
    | some found => some (0 :: found)
    | none => none
  | start_obj :: next :: rest =>
    match sp_te_seek_next_string_in start_obj with
    | some found => some (0 :: found)
    | none =>
      if is_line_break_object next then none
      else (sp_te_seek_next_string_recursive (next :: rest)).map nextSibling
end

/-- Embedding of `sp_te_seek_next_string_recursive(start_obj)` for a pointer into the
document; the result is again a pointer into the document. -/
def sp_te_seek_next_string (doc : SPObject) (start_obj : ObjPath) : Option ObjPath :=
  match start_obj.getLast? with
  | none => (sp_te_seek_next_string_recursive [doc]).map (fun found => found.drop 1)
  | some i =>
    match getObject doc start_obj.dropLast with
    | none => none
    | some parent =>
      (sp_te_seek_next_string_recursive (parent.childList.drop i)).map
        (fun found => match found with
          | [] => start_obj
          | k :: below => start_obj.dropLast ++ (i + k) :: below)

mutual
/-- The descent of `move_to_end_of_paragraph`: `lastChild()` as long as there are
children; the result is relative to the object. -/
def last_leaf : SPObject → ObjPath
  | .SPString _ => []
  | .element _ children => last_leaf_of children 0
/-- The same from a list of children whose first element has index `k`. -/
def last_leaf_of : List SPObject → Nat → ObjPath
  | [], _ => []
  | [child], k => k :: last_leaf child
  | _ :: next :: rest, k => last_leaf_of (next :: rest) (k + 1)
end

/-! ### The collaborators of `text-editing.cpp` -/

/-- The `Inkscape::Text::Layout` of a text item, as far as `text-editing.cpp`
uses it. A layout iterator is a character position; a source object is a
pointer into the document (`none` is `NULL`), and the text iterator that comes
with it is a character offset in the string. -/
structure Layout where
  /-- Embedding of `end()` -/
  layout_end : Nat
  /-- Embedding of `iterator::prevCharacter()`: whether it moved, and the iterator afterwards. -/
  prevCharacter : Nat → Bool × Nat
  /-- Embedding of `getSourceOfCharacter(it, &source_obj, &text_iter)` -/
  getSourceOfCharacter : Nat → Option ObjPath × Nat
  /-- Embedding of `iteratorToCharIndex(it)` -/
  iteratorToCharIndex : Nat → Nat
  /-- Embedding of `charIndexToIterator(char_index)` -/
  charIndexToIterator : Nat → Nat
  /-- Embedding of `validateIterator(&it)`: the iterator afterwards. -/
  validateIterator : Nat → Nat

/-- The functions `text-editing.cpp` calls that live elsewhere (GLib, the layout
engine, `TextTagAttributes`, the XML and style modules), and the two parts of
`sp_te_delete` that are built on them. -/
structure TextEnv where
  /-- Embedding of `g_utf8_validate(utf8, -1, NULL)` -/
  g_utf8_validate : List Nat → Bool
  /-- Embedding of `g_utf8_strlen(utf8, -1)` -/
  g_utf8_strlen : List Nat → Nat
  /-- The characters a `Glib::ustring` holds for a UTF-8 byte string. -/
  ustring : List Nat → List Char
  /-- Embedding of `TextTagAttributes::insert(start_index, n)` -/
  attributes_insert : TextTagAttributes → Nat → Nat → TextTagAttributes
  /-- Embedding of `TextTagAttributes::erase(start_index, n)` -/
  attributes_erase : TextTagAttributes → Nat → Nat → TextTagAttributes
  /-- Embedding of `TextTagAttributes::writeTo(repr)`: the attributes of the XML node afterwards. -/
  attributes_writeTo : TextTagAttributes → List (String × String) → List (String × String)
  /-- Embedding of `rebuildLayout()` of the item, from the document as it stands. -/
  rebuildLayout : SPObject → ObjPath → Layout
  /-- The walk of `sp_te_delete` from `start_item` to `end_item` (the `else`
  branch of `if (start_item == end_item)`), with `delete_line_break`: the
  document afterwards, given the item, `start_item`, `start_text_iter`,
  `end_item` and `end_text_iter`. -/
  delete_walk : SPObject → ObjPath → ObjPath → Nat → ObjPath → Nat → SPObject
  /-- Embedding of `while (tidy_xml_tree_recursively(common_ancestor));`: the document afterwards. -/
  tidy_xml_tree : SPObject → ObjPath → SPObject

/-- The document together with the layout the text item holds. -/
structure TextState where
  doc : SPObject
  layout : Layout

/-- Embedding of `te_get_layout`; `none` is `NULL`. -/
def te_get_layout (st : TextState) (item : ObjPath) : Option Layout :=
  match getObject st.doc item with
  | some (.element d _) =>
    if d.type = .SPText ∨ d.type = .SPFlowtext then some st.layout else none
  | _ => none

/-- Embedding of `SP_IS_FLOWTEXT` of the designated object. -/
def SP_IS_FLOWTEXT (doc : SPObject) (item : ObjPath) : Bool :=
  match getObject doc item with
  | some (.element d _) => d.type = .SPFlowtext
  | _ => false

/-- Embedding of `SP_IS_FLOWREGION(o) || SP_IS_FLOWREGIONEXCLUDE(o)`. -/
def is_flow_region : SPObject → Bool
  | .SPString _ => false
  | .element d _ => d.type = .SPFlowregion || d.type = .SPFlowregionExclude

/-! ### Inserting text -/

/-- The `for ( ; ; )` loop of `insert_into_spstring` over the parents.
`parent_item` is given by its pointer read backwards; `none` when the loop
reaches an object without parent. -/
def insert_into_spstring_parents (E : TextEnv) (char_count : Nat) :
    SPObject → List Nat → Nat → Option SPObject
  | _, [], _ => none
  | doc, i :: above, char_index =>
    match getObject doc above.reverse with
    | none => none
    | some parent_item =>
      let char_index := char_index + ((parent_item.childList.take i).map sp_text_get_length).sum
      match attributes_for_object parent_item with
      | none => some doc
      | some attributes =>
        insert_into_spstring_parents E char_count
          (modifyObject (setAttributes (E.attributes_insert attributes char_index char_count))
            doc above.reverse)
          above char_index

/-- Embedding of `insert_into_spstring`: the document afterwards. -/
def insert_into_spstring (E : TextEnv) (doc : SPObject) (string_item : ObjPath)
    (iter_at : Nat) (utf8 : List Nat) : Option SPObject :=
  match getObject doc string_item with
  | some (.SPString string) =>
    let char_index := iter_at
    let char_count := E.g_utf8_strlen utf8
    let replaced := string.take iter_at ++ E.ustring utf8 ++ string.drop iter_at
    insert_into_spstring_parents E char_count
      (modifyObject (fun _ => .SPString replaced) doc string_item)
      string_item.reverse char_index
  | _ => none

/-- The object `sp_repr_new("svg:flowPara")` gives rise to. -/
def new_flowPara : SPObject :=
  .element ⟨.SPFlowpara, .SP_TSPAN_ROLE_UNSPECIFIED, ⟨[], [], [], [], []⟩, "svg:flowPara", []⟩ []

/-- Embedding of `appendChild` on the designated object. -/
def appendChild (child : SPObject) : SPObject → SPObject
  | .SPString string => .SPString string
  | .element d children => .element d (children ++ [child])

/-- Embedding of `addChild(child, NULL)` on the designated object: the new child comes first. -/
def addChildFirst (child : SPObject) : SPObject → SPObject
  | .SPString string => .SPString string
  | .element d children => .element d (child :: children)

/-- The part of `sp_te_insert` that chooses `source_obj` when the source of the
previous character is not a string: the document and `source_obj` afterwards. -/
def sp_te_insert_source (doc : SPObject) (item : ObjPath) (cursor_at_start : Bool)
    (source_obj : Option ObjPath) : Option (SPObject × Option ObjPath) :=
  if cursor_at_start then
    match getObject doc item with
    | none => none
    | some item_obj =>
      let source_obj : ObjPath :=
        if item_obj.hasChildren then
          if SP_IS_FLOWTEXT doc item then
            match item_obj.childList.findIdx? (fun child => !is_flow_region child) with
            | some k => item ++ [k]
            | none => item
          else item ++ [0]
        else item
      if source_obj = item ∧ SP_IS_FLOWTEXT doc item = true then
        some (modifyObject (appendChild new_flowPara) doc item,
              some (item ++ [item_obj.childList.length]))
      else some (doc, some source_obj)
  else
    match source_obj with
    | none => none
    | some source_obj => some (doc, SP_OBJECT_NEXT doc source_obj)

/-- Embedding of `sp_te_insert`: the state and the returned iterator; `none` when the code
dereferences a null pointer. -/
def sp_te_insert (E : TextEnv) (st : TextState) (item : ObjPath) (position : Nat)
    (utf8 : List Nat) : Option (TextState × Nat) :=
  if !E.g_utf8_validate utf8 then
    some (st, position)
  else
    match te_get_layout st item with
    | none => none
    | some layout =>
      let (moved, it_prev_char) := layout.prevCharacter position
      let cursor_at_start := !moved
      let cursor_at_end := position == layout.layout_end
      let (source_obj, iter_text) := layout.getSourceOfCharacter it_prev_char
      let source := source_obj.bind (fun p => getObject st.doc p)
      let inserted : Option SPObject :=
        match source_obj, source with
        | some string_item, some (.SPString string) =>
          let iter_text := if !cursor_at_start then iter_text + 1 else iter_text
          insert_into_spstring E st.doc string_item
            (if cursor_at_end then string.length else iter_text) utf8
        | some _, none => none
        | _, _ =>
          match sp_te_insert_source st.doc item cursor_at_start source_obj with
          | none => none
          | some (doc, none) => some doc
          | some (doc, some source_obj) =>
            match sp_te_seek_next_string doc source_obj with
            | some string_item =>
              match getObject doc string_item with
              | some (.SPString string) =>
                insert_into_spstring E doc string_item
                  (if cursor_at_end then string.length else 0) utf8
              | _ => none
            | none =>
              insert_into_spstring E (modifyObject (addChildFirst (.SPString [])) doc source_obj)
                (source_obj ++ [0]) 0 utf8
      match inserted with
      | none => none
      | some doc =>
        let char_index := layout.iteratorToCharIndex position
        let rebuilt := E.rebuildLayout doc item
        some (⟨doc, rebuilt⟩, rebuilt.charIndexToIterator (char_index + E.g_utf8_strlen utf8))

/-! ### Deleting text -/

/-- Embedding of `move_to_end_of_paragraph`: `para_obj` and `text_iter` afterwards. -/
def move_to_end_of_paragraph (doc : SPObject) (para_obj : ObjPath) (text_iter : Nat) :
    Option (ObjPath × Nat) :=
  match getObject doc para_obj with
  | none => none
  | some o =>
    let leaf := para_obj ++ last_leaf o
    match getObject doc leaf with
    | some (.SPString string) => some (leaf, string.length)
    | _ => some (leaf, text_iter)

/-- The `while` loop of `get_common_ancestor`, `common_ancestor` read backwards
(the root is an ancestor of every other object); `none` where
`g_assert(common_ancestor != text)` fails. -/
def get_common_ancestor_loop (text two : ObjPath) : List Nat → Option ObjPath
  | [] => some []
  | i :: above =>
    let common_ancestor := (i :: above).reverse
    if common_ancestor = two ∨ common_ancestor <+: two then some common_ancestor
    else if common_ancestor = text then none
    else get_common_ancestor_loop text two above

/-- Embedding of `get_common_ancestor`. -/
def get_common_ancestor (doc : SPObject) (text : ObjPath) (one two : Option ObjPath) :
    Option ObjPath :=
  match one, two with
  | some one, some two =>
    let common_ancestor :=
      match getObject doc one with
      | some (.SPString _) => one.dropLast
      | _ => one
    get_common_ancestor_loop text two common_ancestor.reverse
  | _, _ => some text

/-- The `for ( ; ; )` loop of `erase_from_spstring` over the parents, as in
`insert_into_spstring_parents`, with `erase` and `writeTo`. -/
def erase_from_spstring_parents (E : TextEnv) (char_count : Nat) :
    SPObject → List Nat → Nat → Option SPObject
  | _, [], _ => none
  | doc, i :: above, char_index =>
    match getObject doc above.reverse with
    | none => none
    | some parent_item =>
      let char_index := char_index + ((parent_item.childList.take i).map sp_text_get_length).sum
      match parent_item, attributes_for_object parent_item with
      | .element d children, some attributes =>
        let erased := E.attributes_erase attributes char_index char_count
        erase_from_spstring_parents E char_count
          (modifyObject
            (fun _ => .element
              { d with attributes := erased, attrs := E.attributes_writeTo erased d.attrs }
              children)
            doc above.reverse)
          above char_index
      | _, _ => some doc

/-- Embedding of `erase_from_spstring`: the document afterwards. -/
def erase_from_spstring (E : TextEnv) (doc : SPObject) (string_item : ObjPath)
    (iter_from iter_to : Nat) : Option SPObject :=
  match getObject doc string_item with
  | some (.SPString string) =>
    let char_index := iter_from
    let char_count := iter_to - iter_from
    let erased := string.take iter_from ++ string.drop iter_to
    erase_from_spstring_parents E char_count
      (modifyObject (fun _ => .SPString erased) doc string_item)
      string_item.reverse char_index
  | _ => none

/-- The start of the deletion in `sp_te_delete`: `start_item` and `start_text_iter`
after `if (is_line_break_object(start_item)) move_to_end_of_paragraph(...)`. -/
def delete_start_point (doc : SPObject) (start_item : ObjPath) (start_text_iter : Nat) :
    Option (ObjPath × Nat) :=
  match getObject doc start_item with
  | none => none
  | some o =>
    if is_line_break_object o then move_to_end_of_paragraph doc start_item start_text_iter
    else some (start_item, start_text_iter)

/-- The end of the deletion in `sp_te_delete`: `end_item` and `end_text_iter` after
the `if (end_item == NULL) ... else if (is_line_break_object(end_item)) ...`. -/
def delete_end_point (doc : SPObject) (item : ObjPath) (end_item : Option ObjPath)
    (end_text_iter : Nat) : Option (ObjPath × Nat) :=
  match end_item with
  | none =>
    match lastChild doc item with
    | none => none
    | some last_child => move_to_end_of_paragraph doc last_child end_text_iter
  | some end_item =>
    match getObject doc end_item with
    | none => none
    | some o =>
      if is_line_break_object o then move_to_end_of_paragraph doc end_item end_text_iter
      else some (end_item, end_text_iter)

/-- The deletion proper in `sp_te_delete`, from `get_common_ancestor` to the
`while (tidy_xml_tree_recursively(common_ancestor));`: the document afterwards. -/
def delete_between (E : TextEnv) (doc : SPObject) (item : ObjPath)
    (start end_ : ObjPath × Nat) : Option SPObject :=
  match get_common_ancestor doc item (some start.1) (some end_.1) with
  | none => none
  | some common_ancestor =>
    let deleted : Option SPObject :=
      if start.1 = end_.1 then
        match getObject doc start.1 with
        | some (.SPString _) => erase_from_spstring E doc start.1 start.2 end_.2
        | _ => some doc
      else
        some (E.delete_walk doc item start.1 start.2 end_.1 end_.2)
    match deleted with
    | none => none
    | some doc => some (E.tidy_xml_tree doc common_ancestor)

/-- The body of `sp_te_delete` once `first` and `last` are set: the state and the
returned iterator; `none` when the code dereferences a null pointer or an
assertion fails. -/
def sp_te_delete_range (E : TextEnv) (st : TextState) (item : ObjPath) (first last : Nat) :
    Option (TextState × Nat) :=
  match te_get_layout st item with
  | none => none
  | some layout =>
    match (layout.getSourceOfCharacter first).1 with
    | none => some (st, first)
    | some start_item =>
      match delete_start_point st.doc start_item (layout.getSourceOfCharacter first).2,
            delete_end_point st.doc item (layout.getSourceOfCharacter last).1
              (layout.getSourceOfCharacter last).2 with
      | some start, some end_ =>
        match delete_between E st.doc item start end_ with
        | none => none
        | some doc =>
          let rebuilt := E.rebuildLayout doc item
          some (⟨doc, rebuilt⟩, rebuilt.validateIterator first)
      | _, _ => none

/-- Embedding of `sp_te_delete`: the state and the returned iterator; `none` when the code
dereferences a null pointer or an assertion fails. -/
def sp_te_delete (E : TextEnv) (st : TextState) (item : ObjPath) (start end_ : Nat) :
    Option (TextState × Nat) :=
  if start = end_ then some (st, start)
  else
    sp_te_delete_range E st item
      (if start < end_ then start else end_)
      (if start < end_ then end_ else start)

/-! ### A small text, for evaluating the functions above -/

/-- Element data with no positioning attributes and no XML attributes. -/
def plain_data (type : SPObjectType) (name : String) : SPObjectData :=
  ⟨type, .SP_TSPAN_ROLE_UNSPECIFIED, ⟨[], [], [], [], []⟩, name, []⟩

/-- The document `<svg><text>abc</text></svg>`. -/
def sample_doc : SPObject :=
  .element (plain_data .SPOther "svg:svg")
    [.element (plain_data .SPText "svg:text") [.SPString ['a', 'b', 'c']]]

/-- The pointer to the `<text>` of `sample_doc`. -/
def sample_item : ObjPath := [0]

/-- The layout of a text item whose only child is one string: position `i` is
the `i`-th character of that string, `end()` is its length. -/
def sample_layout (doc : SPObject) (item : ObjPath) : Layout :=
  let n := match getObject doc (item ++ [0]) with
    | some (.SPString string) => string.length
    | _ => 0
  { layout_end := n
    prevCharacter := fun it => if it = 0 then (false, 0) else (true, it - 1)
    getSourceOfCharacter := fun it => if it < n then (some (item ++ [0]), it) else (none, 0)
    iteratorToCharIndex := fun it => it
    charIndexToIterator := fun char_index => char_index
    validateIterator := fun it => if n ≤ it then n else it }

/-- Sample collaborators: byte strings are ASCII (a byte below 128 is a
character, every other byte is invalid), the positioning attributes are left
alone, the layout is `sample_layout`. -/
def sample_env : TextEnv :=
  { g_utf8_validate := fun utf8 => utf8.all (fun b => decide (b < 128))
    g_utf8_strlen := fun utf8 => utf8.length
    ustring := fun utf8 => utf8.map Char.ofNat
    attributes_insert := fun attributes _ _ => attributes
    attributes_erase := fun attributes _ _ => attributes
    attributes_writeTo := fun _ attrs => attrs
    rebuildLayout := sample_layout
    delete_walk := fun doc _ _ _ _ _ => doc
    tidy_xml_tree := fun doc _ => doc }

/-- The sample document with its layout. -/
def sample_state : TextState := ⟨sample_doc, sample_layout sample_doc sample_item⟩

/-- The length of a string without the blanks at its end. -/
def trimmed_length (string : List Char) : Nat :=
  (string.reverse.dropWhile (fun c => c = ' ')).length

/-- A layout that leaves out the blanks at the end of the text, as the layout of
SVG text does: for a text item whose only child is one string, position `i` is
the `i`-th character of that string, `end()` is its length without the blanks at
its end, and `validateIterator` brings a position past the end to the end. -/
def trimming_layout (doc : SPObject) (item : ObjPath) : Layout :=
  let n := match getObject doc (item ++ [0]) with
    | some (.SPString string) => trimmed_length string
    | _ => 0
  { layout_end := n
    prevCharacter := fun it => if it = 0 then (false, 0) else (true, it - 1)
    getSourceOfCharacter := fun it => if it < n then (some (item ++ [0]), it) else (none, 0)
    iteratorToCharIndex := fun it => it
    charIndexToIterator := fun char_index => char_index
    validateIterator := fun it => if n ≤ it then n else it }

/-- The sample collaborators with `trimming_layout` for the layout. -/
def trimming_env : TextEnv := { sample_env with rebuildLayout := trimming_layout }

/-- The document `<svg><text>a b</text></svg>` with its trimming layout, which has
the three positions before `a`, the blank and `b`, and the end. -/
def blank_state : TextState :=
  ⟨.element (plain_data .SPOther "svg:svg")
      [.element (plain_data .SPText "svg:text") [.SPString ['a', ' ', 'b']]],
   trimming_layout
     (.element (plain_data .SPOther "svg:svg")
       [.element (plain_data .SPText "svg:text") [.SPString ['a', ' ', 'b']]])
     sample_item⟩

/-! ### Tidying: whitespace-only strings -/

mutual
/-- Embedding of `find_last_string_child_not_equal_to (root, not_obj)`, `root` being
the object at the pointer `root_ptr`. The loop of the source runs from the last
child to the first and returns at the first hit; here the later children are
asked first, which gives the same child. -/
def find_last_string_child_not_equal_to (not_obj : ObjPath) : SPObject → ObjPath →
    Option ObjPath
  | .SPString _, _ => none
  | .element _ children, root_ptr =>
    find_last_string_child_among not_obj children root_ptr 0
/-- The loop of `find_last_string_child_not_equal_to` over the children from index
`k` on. -/
def find_last_string_child_among (not_obj : ObjPath) : List SPObject → ObjPath → Nat →
    Option ObjPath
  | [], _, _ => none
  | child :: rest, root_ptr, k =>
    match find_last_string_child_among not_obj rest root_ptr (k + 1) with
    | some ret => some ret
    | none =>
      if root_ptr ++ [k] = not_obj then none
      else
        match child with
        | .SPString _ => some (root_ptr ++ [k])
        | .element d children =>
          if children.isEmpty then none
          else find_last_string_child_not_equal_to not_obj (.element d children) (root_ptr ++ [k])
end

/-- The inner `for ( ; ; )` loop of `tidy_operator_styled_whitespace` ("go up one
item in the xml"), `test_item` read backwards: `test_item` afterwards. `none`
where the loop passes the root (`SP_OBJECT_NEXT` of `NULL`). -/
def styled_whitespace_go_up (doc : SPObject) : List Nat → Option ObjPath
  | [] => none
  | _ :: above =>
    match getObject doc above.reverse with
    | none => none
    | some parent =>
      if is_line_break_object parent then some above.reverse
      else
        match SP_OBJECT_NEXT doc above.reverse with
        | some next => some next
        | none => styled_whitespace_go_up doc above

/-- Embedding of `next_string->string.insert(0, str)` -/
def string_insert_front (str : List Char) : SPObject → SPObject
  | .SPString string => .SPString (str ++ string)
  | .element d children => .element d children

/-- Embedding of `next_string->string += str` -/
def string_append (str : List Char) : SPObject → SPObject
  | .SPString string => .SPString (string ++ str)
  | .element d children => .element d children

/-- The outer `for ( ; ; )` loop of `tidy_operator_styled_whitespace` ("find the next
string"), for at most `turns` turns: `some (some doc)` is the document after the
string has been given to `next_string`, `some none` is the `return false` of the
empty paragraph, `none` a null dereference or no turn left. -/
def styled_whitespace_loop (doc : SPObject) (item : ObjPath) (str : List Char) :
    Nat → ObjPath → Option (Option SPObject)
  | 0, _ => none
  | turns + 1, test_item =>
    let next_string :=
      match SP_OBJECT_NEXT doc test_item with
      | none => none
      | some next => sp_te_seek_next_string doc next
    match next_string with
    | some next_string => some (some (modifyObject (string_insert_front str) doc next_string))
    | none =>
      match styled_whitespace_go_up doc test_item.reverse with
      | none => none
      | some test_item =>
        match getObject doc test_item with
        | none => none
        | some object =>
          if is_line_break_object object then
            match find_last_string_child_not_equal_to item object test_item with
            | none => some none
            | some next_string =>
              some (some (modifyObject (string_append str) doc next_string))
          else styled_whitespace_loop doc item str turns test_item

/-- The children without the one at index `i`. -/
def remove_child (i : Nat) : SPObject → SPObject
  | .SPString string => .SPString string
  | .element d children => .element d (children.eraseIdx i)

/-- Embedding of `deleteObject()` on the designated object: the document afterwards. -/
def deleteObject (doc : SPObject) (object : ObjPath) : SPObject :=
  match object.getLast? with
  | none => doc
  | some i => modifyObject (remove_child i) doc object.dropLast

/-- Embedding of `tidy_operator_styled_whitespace (&item)`: the document
afterwards, `*item` afterwards, and the value returned; `none` for a null
dereference. Each turn of the outer loop brings `test_item` at least one level
up, so no more turns are needed than `item` has levels above it. After the
deletion the former next sibling of the item stands at the place of the item. -/
def tidy_operator_styled_whitespace (g_unichar_isspace : Char → Bool) (doc : SPObject)
    (item : ObjPath) : Option (SPObject × Option ObjPath × Bool) :=
  match getObject doc item with
  | none => none
  | some (.element _ _) => some (doc, some item, false)
  | some (.SPString str) =>
    if !str.all g_unichar_isspace then some (doc, some item, false)
    else
      match styled_whitespace_loop doc item str (item.length + 1) item with
      | none => none
      | some none => some (doc, some item, false)
      | some (some moved) =>
        some (deleteObject moved item,
              (SP_OBJECT_NEXT doc item).map (fun _ => item),
              true)

mutual
/-- The characters of the strings at or below an object, in document order. -/
def character_sequence : SPObject → List Char
  | .SPString string => string
  | .element _ children => character_sequence_of children
/-- The characters of the strings at or below the objects of a list, in order. -/
def character_sequence_of : List SPObject → List Char
  | [] => []
  | child :: rest => character_sequence child ++ character_sequence_of rest
end

/-- A styled span `<font>` with the given children: a `flowSpan` with a style. -/
def font_span (children : List SPObject) : SPObject :=
  .element ⟨.SPFlowtspan, .SP_TSPAN_ROLE_UNSPECIFIED, ⟨[], [], [], [], []⟩, "svg:flowSpan",
    [("style", "font-weight:bold")]⟩ children

/-- A flowed text with one paragraph that has the given children. -/
def paragraph_doc (children : List SPObject) : SPObject :=
  .element (plain_data .SPFlowtext "svg:flowRoot")
    [.element (plain_data .SPFlowpara "svg:flowPara") children]

/-! ## `inkscape-application.cpp` -/

/-- A value held by the option dictionary or queued with an action;
`none` is the empty `Glib::VariantBase()`. -/
inductive Variant where
  | none
  | boolean (b : Bool)
  | string (s : String)
  | int32 (i : Int)
  | double (d : ℚ)
  deriving DecidableEq, Repr

/-- Embedding of `Glib::VariantDict`: the options that were given, each with its value. -/
abbrev VariantDict := List (String × Variant)

/-- Embedding of `options->contains(key)`. -/
def VariantDict.contains (options : VariantDict) (key : String) : Bool :=
  (options.lookup key).isSome

/-- Embedding of `options->lookup_value(key, value)` into a `Glib::ustring` that starts empty. -/
def VariantDict.lookup_string (options : VariantDict) (key : String) : String :=
  match options.lookup key with
  | some (.string s) => s
  | _ => ""

/-- Embedding of `options->lookup_value(key, value)` into an `int` that starts at `0`. -/
def VariantDict.lookup_int (options : VariantDict) (key : String) : Int :=
  match options.lookup key with
  | some (.int32 i) => i
  | _ => 0

/-- Embedding of `options->lookup_value(key, member)` into a member of `_file_export`: the
member afterwards. The members are kept as the values looked up. -/
def VariantDict.lookup_value (options : VariantDict) (key : String) (member : Variant) :
    Variant :=
  match options.lookup key with
  | some v => v
  | Option.none => member

/-- The members of `_file_export` that `on_handle_local_options` writes. -/
structure InkFileExportCmd where
  export_filename : Variant
  export_type : Variant
  export_overwrite : Bool
  export_area : Variant
  export_area_drawing : Bool
  export_area_page : Bool
  export_margin : Variant
  export_area_snap : Bool
  export_width : Variant
  export_height : Variant
  export_id : Variant
  export_id_only : Bool
  export_plain_svg : Bool
  export_dpi : Variant
  export_ignore_filters : Bool
  export_text_to_path : Bool
  export_ps_level : Variant
  export_pdf_level : Variant
  export_latex : Bool
  export_use_hints : Bool
  export_background : Variant
  export_background_opacity : Variant
  deriving DecidableEq, Repr

/-- The members of `InkscapeApplication` that `on_handle_local_options` reads or
writes. What it prints and the actions it activates at once are not part of
this state. -/
structure InkscapeApplication where
  _with_gui : Bool
  _command_line_actions : List (String × Variant)
  _file_export : InkFileExportCmd
  deriving DecidableEq, Repr

/-- The library functions used on the `actions` option. -/
structure AppEnv where
  /-- Embedding of `Glib::Regex::split_simple(pattern, string)` -/
  split_simple : String → String → List String
  /-- Embedding of `lookup_action(name)` with `g_action_get_parameter_type`: `none` when there is
  no such action, `some none` for an action without parameter, `some (some t)`
  for a parameter of type string `t`. -/
  lookup_action : String → Option (Option String)
  /-- Embedding of `std::stoi`; `none` when it throws. -/
  stoi : String → Option Int
  /-- Embedding of `std::stod`; `none` when it throws. -/
  stod : String → Option ℚ

/-- How a call of `on_handle_local_options` ends. -/
inductive Outcome where
  | returned (code : Int)
  | thrown
  deriving DecidableEq, Repr

/-- Embedding of `EXIT_SUCCESS`. -/
def EXIT_SUCCESS : Int := 0

/-- The body of the loop over the tokens of the `actions` option: the queue
afterwards, and whether `std::stoi` or `std::stod` threw. -/
def queue_action_token (E : AppEnv) (queue : List (String × Variant)) (token : String) :
    List (String × Variant) × Bool :=
  let tokens2 := E.split_simple "\\s*:\\s*" token
  let action := tokens2[0]?.getD ""
  let value := tokens2[1]?.getD ""
  match E.lookup_action action with
  | Option.none => (queue, false)
  | some Option.none => (queue ++ [(action, Variant.none)], false)
  | some (some type) =>
    if type = "s" then (queue ++ [(action, .string value)], false)
    else if type = "i" then
      match E.stoi value with
      | some i => (queue ++ [(action, .int32 i)], false)
      | Option.none => (queue, true)
    else if type = "d" then
      match E.stod value with
      | some d => (queue ++ [(action, .double d)], false)
      | Option.none => (queue, true)
    else (queue, false)

/-- The loop over the tokens of the `actions` option. -/
def queue_action_tokens (E : AppEnv) :
    List (String × Variant) → List String → List (String × Variant) × Bool
  | queue, [] => (queue, false)
  | queue, token :: tokens =>
    match queue_action_token E queue token with
    | (queue, true) => (queue, true)
    | (queue, false) => queue_action_tokens E queue tokens

/-- The section `GUI` of `on_handle_local_options`. -/
def handle_gui (options : VariantDict) (app : InkscapeApplication) : InkscapeApplication :=
  let app := if options.contains "without-gui" then { app with _with_gui := false } else app
  let app := if options.contains "with-gui" then { app with _with_gui := true } else app
  if options.contains "query-id" ||
     options.contains "query-x" ||
     options.contains "query-all" ||
     options.contains "query-y" ||
     options.contains "query-width" ||
     options.contains "query-height" ||
     options.contains "export-type" ||
     options.contains "export-file" ||
     options.contains "export-overwrite"
  then { app with _with_gui := false }
  else app

/-- The section `ACTIONS`: the application afterwards, and whether it threw. -/
def handle_actions (E : AppEnv) (options : VariantDict) (app : InkscapeApplication) :
    InkscapeApplication × Bool :=
  if options.contains "actions" then
    let actions := options.lookup_string "actions"
    let tokens := E.split_simple "\\s*;\\s*" actions
    let r := queue_action_tokens E app._command_line_actions tokens
    ({ app with _command_line_actions := r.1 }, r.2)
  else (app, false)

/-- Embedding of `_command_line_actions.push_back(std::make_pair(name, value))`. -/
def push_action (name : String) (value : Variant) (app : InkscapeApplication) :
    InkscapeApplication :=
  { app with _command_line_actions := app._command_line_actions ++ [(name, value)] }

/-- The queueing of an option that takes a string: nothing is queued for an
empty string. -/
def push_string_option (options : VariantDict) (key : String) (app : InkscapeApplication) :
    InkscapeApplication :=
  if options.contains key then
    let value := options.lookup_string key
    if value ≠ "" then push_action key (.string value) app else app
  else app

/-- The queueing of an option without argument under the action name `name`. -/
def push_flag_option (options : VariantDict) (key name : String) (app : InkscapeApplication) :
    InkscapeApplication :=
  if options.contains key then push_action name Variant.none app else app

/-- The section `OPEN/IMPORT`. -/
def handle_open (options : VariantDict) (app : InkscapeApplication) : InkscapeApplication :=
  let app :=
    if options.contains "pdf-page" then
      push_action "open-page" (.int32 (options.lookup_int "pdf-page")) app
    else app
  let app := push_string_option options "convert-dpi-method" app
  push_flag_option options "no-convert-text-baseline-spacing" "no-convert-baseline" app

/-- The second section `QUERY`. -/
def handle_query (options : VariantDict) (app : InkscapeApplication) : InkscapeApplication :=
  let app := push_string_option options "query-id" app
  let app := push_flag_option options "query-all" "query-all" app
  let app := push_flag_option options "query-x" "query-x" app
  let app := push_flag_option options "query-y" "query-y" app
  let app := push_flag_option options "query-width" "query-width" app
  push_flag_option options "query-height" "query-height" app

/-- The section `PROCESS`. -/
def handle_process (options : VariantDict) (app : InkscapeApplication) : InkscapeApplication :=
  let app := push_flag_option options "vacuum-defs" "vacuum-defs" app
  let app := push_string_option options "select" app
  push_string_option options "verb" app

/-- Embedding of `if (options->contains(key)) member = true;` -/
def set_flag (options : VariantDict) (key : String) (member : Bool) : Bool :=
  if options.contains key then true else member

/-- Embedding of `if (options->contains(key)) options->lookup_value(key, member);` -/
def set_value (options : VariantDict) (key : String) (member : Variant) : Variant :=
  if options.contains key then options.lookup_value key member else member

/-- The section `EXPORT`, on `_file_export`: each statement writes one member,
and no member is written twice. -/
def handle_export (options : VariantDict) (e : InkFileExportCmd) : InkFileExportCmd :=
  { export_filename := set_value options "export-file" e.export_filename
    export_type := set_value options "export-type" e.export_type
    export_overwrite := set_flag options "export-overwrite" e.export_overwrite
    export_area := set_value options "export-area" e.export_area
    export_area_drawing := set_flag options "export-area-drawing" e.export_area_drawing
    export_area_page := set_flag options "export-area-page" e.export_area_page
    export_margin := set_value options "export-margin" e.export_margin
    export_area_snap := set_flag options "export-area-snap" e.export_area_snap
    export_width := set_value options "export-width" e.export_width
    export_height := set_value options "export-height" e.export_height
    export_id := set_value options "export-id" e.export_id
    export_id_only := set_flag options "export-id-only" e.export_id_only
    export_plain_svg := set_flag options "export-plain-svg" e.export_plain_svg
    export_dpi := set_value options "export-dpi" e.export_dpi
    export_ignore_filters := set_flag options "export-ignore-filters" e.export_ignore_filters
    export_text_to_path := set_flag options "export-text-to-path" e.export_text_to_path
    export_ps_level := set_value options "export-ps-level" e.export_ps_level
    export_pdf_level := set_value options "export-pdf-level" e.export_pdf_level
    export_latex := set_flag options "export-latex" e.export_latex
    export_use_hints := set_flag options "export-use-hints" e.export_use_hints
    export_background := set_value options "export-background" e.export_background
    export_background_opacity :=
      set_value options "export-background-opacity" e.export_background_opacity }

/-- Embedding of `InkscapeApplication::on_handle_local_options`: the application afterwards
and how the call ended. `options = none` is the null `RefPtr`. -/
def on_handle_local_options (E : AppEnv) (app : InkscapeApplication)
    (options : Option VariantDict) : InkscapeApplication × Outcome :=
  match options with
  | Option.none => (app, .returned (-1))
  | some options =>
    if options.contains "version" then (app, .returned EXIT_SUCCESS)
    else if options.contains "extensions-directory" then (app, .returned EXIT_SUCCESS)
    else if options.contains "verb-list" then (app, .returned EXIT_SUCCESS)
    else if options.contains "action-list" then (app, .returned EXIT_SUCCESS)
    else
      let app := handle_gui options app
      match handle_actions E options app with
      | (app, true) => (app, .thrown)
      | (app, false) =>
        let app := handle_open options app
        let app := handle_query options app
        let app := handle_process options app
        ({ app with _file_export := handle_export options app._file_export }, .returned (-1))

/-- The pieces of a list of characters between the occurrences of `sep`;
`current` is the piece being read, backwards. -/
def split_at_char (sep : Char) : List Char → List Char → List String
  | [], current => [String.mk current.reverse]
  | c :: rest, current =>
    if c = sep then String.mk current.reverse :: split_at_char sep rest []
    else split_at_char sep rest (c :: current)

/-- The value of a list of decimal digits; `none` when it is empty or has
another character. -/
def decimal_value : List Char → Option Nat
  | [] => Option.none
  | c :: rest =>
    (c :: rest).foldl
      (fun acc d => acc.bind (fun n =>
        if 48 ≤ d.toNat ∧ d.toNat ≤ 57 then some (10 * n + (d.toNat - 48)) else Option.none))
      (some 0)

/-- A sample of the library functions: tokens are split at `;` and at `:` (no
blanks around them), the actions `query-x` (no parameter), `select` (a string)
and `open-page` (an integer) exist, and numbers are unsigned decimals. -/
def sample_app_env : AppEnv :=
  { split_simple := fun pattern string =>
      if pattern = "\\s*;\\s*" then split_at_char ';' string.data []
      else split_at_char ':' string.data []
    lookup_action := fun name =>
      if name = "query-x" then some Option.none
      else if name = "select" then some (some "s")
      else if name = "open-page" then some (some "i")
      else Option.none
    stoi := fun value => (decimal_value value.data).map (fun n => (n : Int))
    stod := fun value => (decimal_value value.data).map (fun n => (n : ℚ)) }

/-- A sample application: with GUI, nothing queued, nothing set for export. -/
def sample_app : InkscapeApplication :=
  { _with_gui := true
    _command_line_actions := []
    _file_export :=
      ⟨Variant.none, Variant.none, false, Variant.none, false, false, Variant.none, false,
       Variant.none, Variant.none, Variant.none, false, false, Variant.none, false, false,
       Variant.none, Variant.none, false, false, Variant.none, Variant.none⟩ }

/-! ### The documented order of the dedicated options -/

/-- What a dedicated option that takes a string is documented to queue: the
action of the same name with the string, unless the string is empty. -/
def string_option_action (options : VariantDict) (key : String) : List (String × Variant) :=
  if options.contains key = true ∧ options.lookup_string key ≠ "" then
    [(key, .string (options.lookup_string key))]
  else []

/-- What a dedicated option without argument is documented to queue: the action `name`. -/
def flag_option_action (options : VariantDict) (key name : String) :
    List (String × Variant) :=
  if options.contains key then [(name, Variant.none)] else []

/-- The actions of the dedicated options in the documented order
Open, Query (with `query-id` first), Process. -/
def dedicated_actions (options : VariantDict) : List (String × Variant) :=
  (if options.contains "pdf-page" then
      [("open-page", Variant.int32 (options.lookup_int "pdf-page"))] else [])
  ++ string_option_action options "convert-dpi-method"
  ++ flag_option_action options "no-convert-text-baseline-spacing" "no-convert-baseline"
  ++ string_option_action options "query-id"
  ++ flag_option_action options "query-all" "query-all"
  ++ flag_option_action options "query-x" "query-x"
  ++ flag_option_action options "query-y" "query-y"
  ++ flag_option_action options "query-width" "query-width"
  ++ flag_option_action options "query-height" "query-height"
  ++ flag_option_action options "vacuum-defs" "vacuum-defs"
  ++ string_option_action options "select"
  ++ string_option_action options "verb"

/-- The names of the actions of the dedicated options, in the documented order. -/
def dedicated_order : List String :=
  ["open-page", "convert-dpi-method", "no-convert-baseline", "query-id", "query-all",
   "query-x", "query-y", "query-width", "query-height", "vacuum-defs", "select", "verb"]

/-! ## `verbs.cpp`: the action tables -/

/-- The type `sp_verb_t` of verb numbers. -/
abbrev sp_verb_t := Int

/-- A pointer to an `SPView`: its address. -/
abbrev SPView := Nat

/-- A pointer to an `SPAction`: its address; `NULL` is `none`. -/
abbrev SPAction := Nat

/-- The type `ActionTable`: a hash map from verbs to actions, in the order of insertion. -/
abbrev ActionTable := List (sp_verb_t × SPAction)

/-- The method `SPVerbActionFactory::make_action(verb, view)`, given the number of
`SPAction` objects that exist: the action it returns (or `NULL`) and the number of
`SPAction` objects afterwards. -/
abbrev SPVerbActionFactory := sp_verb_t → SPView → Nat → Option SPAction × Nat

/-- The static variables of `verbs.cpp` and the objects they point to.
`verb_tables` maps a view to the pointer to its `ActionTable`, which is the index
of that table in `action_tables`, the tables allocated with `new ActionTable`.
`n_actions` counts the `SPAction` objects created so far; a new one gets this
number as its address. -/
structure VerbState where
  verb_tables : List (SPView × Nat)
  action_tables : List ActionTable
  factories : List (sp_verb_t × SPVerbActionFactory)
  next_verb : sp_verb_t
  n_actions : Nat

/-- What `verbs.cpp` takes from `verbs.h`: the value of `SP_VERB_LAST`, and the
column `code` of the table `props`, whose entries are names of that enum. -/
structure VerbEnv where
  SP_VERB_LAST : sp_verb_t
  props_code : List sp_verb_t

/-- The static initialisation: no table, no factory, `next_verb = SP_VERB_LAST`. -/
def VerbState.initial (E : VerbEnv) : VerbState :=
  { verb_tables := []
    action_tables := []
    factories := []
    next_verb := E.SP_VERB_LAST
    n_actions := 0 }

/-- The static function `make_action`: the new action and the number of actions
afterwards; `none` where `assert (props[verb].code == verb)` fails or `props[verb]`
is outside the table. -/
def make_action (E : VerbEnv) (verb : sp_verb_t) (_view : SPView) (n_actions : Nat) :
    Option (SPAction × Nat) :=
  if verb < 0 then none
  else
    match E.props_code[verb.toNat]? with
    | some code => if code = verb then some (n_actions, n_actions + 1) else none
    | none => none

/-- The first part of `sp_verb_get_action`: the table of the view is looked up
in `verb_tables`, and a new, empty one is inserted for a view that has none. The
state afterwards and the pointer `actions`. -/
def find_action_table (s : VerbState) (view : SPView) : VerbState × Nat :=
  match s.verb_tables.lookup view with
  | some actions => (s, actions)
  | none =>
    ({ s with
        action_tables := s.action_tables ++ [[]]
        verb_tables := s.verb_tables ++ [(view, s.action_tables.length)] },
     s.action_tables.length)

/-- The creation of the action in `sp_verb_get_action`: `make_action` for a static
verb, the registered factory otherwise. The action (or `NULL`) and the number of
actions afterwards; the outer `none` is an aborted call. -/
def create_action (E : VerbEnv) (s : VerbState) (verb : sp_verb_t) (view : SPView) :
    Option (Option SPAction × Nat) :=
  if verb < E.SP_VERB_LAST then
    (make_action E verb view s.n_actions).map (fun r => (some r.1, r.2))
  else
    match s.factories.lookup verb with
    | some factory => some (factory verb view s.n_actions)
    | none => some (none, s.n_actions)

/-- The second part of `sp_verb_get_action`, from `actions->find(verb)` on. -/
def get_action_in (E : VerbEnv) (s : VerbState) (actions : Nat) (verb : sp_verb_t)
    (view : SPView) : Option (VerbState × Option SPAction) :=
  match s.action_tables[actions]? with
  | none => none
  | some table =>
    match table.lookup verb with
    | some action => some (s, some action)
    | none =>
      match create_action E s verb view with
      | none => none
      | some (some action, n) =>
        some ({ s with
                action_tables := s.action_tables.set actions (table ++ [(verb, action)])
                n_actions := n },
              some action)
      | some (none, n) => some ({ s with n_actions := n }, none)

/-- Embedding of `sp_verb_get_action`: the state afterwards and the action returned
(`none` is `NULL`); the outer `none` is an aborted call. -/
def sp_verb_get_action (E : VerbEnv) (s : VerbState) (verb : sp_verb_t) (view : SPView) :
    Option (VerbState × Option SPAction) :=
  get_action_in E (find_action_table s view).1 (find_action_table s view).2 verb view

/-- Embedding of `sp_verb_register`: the state afterwards and the verb returned. -/
def sp_verb_register (s : VerbState) (factory : SPVerbActionFactory) :
    VerbState × sp_verb_t :=
  ({ s with
      next_verb := s.next_verb + 1
      factories := s.factories ++ [(s.next_verb, factory)] },
   s.next_verb)

/-- A call of one of the two functions of `verbs.cpp` that write the tables. -/
inductive VerbCall where
  | get_action (verb : sp_verb_t) (view : SPView)
  | register (factory : SPVerbActionFactory)

/-- The state after a sequence of calls; `none` when one of them aborts. -/
def run_verb_calls (E : VerbEnv) : VerbState → List VerbCall → Option VerbState
  | s, [] => some s
  | s, .get_action verb view :: calls =>
    match sp_verb_get_action E s verb view with
    | none => none
    | some (s, _) => run_verb_calls E s calls
  | s, .register factory :: calls => run_verb_calls E (sp_verb_register s factory).1 calls

/-- The action `action` is stored for `verb` in the table of `view`. -/
def action_stored (s : VerbState) (verb : sp_verb_t) (view : SPView) (action : SPAction) :
    Prop :=
  ∃ actions table, s.verb_tables.lookup view = some actions ∧
    s.action_tables[actions]? = some table ∧ table.lookup verb = some action

/-- The views have tables of their own: the pointers in `verb_tables` are pairwise
different and each points to an allocated table. -/
def tables_separate (s : VerbState) : Prop :=
  (s.verb_tables.map Prod.snd).Nodup ∧
  ∀ actions ∈ s.verb_tables.map Prod.snd, actions < s.action_tables.length

/-- A sample of `verbs.h`: three static verbs `0`, `1`, `2` and `SP_VERB_LAST = 3`. -/
def sample_verb_env : VerbEnv :=
  { SP_VERB_LAST := 3
    props_code := [0, 1, 2, 3] }

/-! ## Theorems -/

/-- C1: `CmpBord` orders by position ascending; at equal position an end event
comes before a start event, and two events of the same kind compare equal. -/
theorem CmpBord_order (a b : int_ligne_bord) :
    (a.pos < b.pos → IntLigne.CmpBord a b = -1) ∧
    (a.pos > b.pos → IntLigne.CmpBord a b = 1) ∧
    (a.pos = b.pos → a.start = false → b.start = true → IntLigne.CmpBord a b = -1) ∧
    (a.pos = b.pos → a.start = true → b.start = false → IntLigne.CmpBord a b = 1) ∧
    (a.pos = b.pos → a.start = b.start → IntLigne.CmpBord a b = 0) := by
  refine ⟨?_, ?_, ?_, ?_, ?_⟩
  · intro h
    simp [IntLigne.CmpBord, h, ne_of_lt h]
  · intro h
    have h1 : ¬ a.pos = b.pos := fun e => by omega
    have h2 : ¬ a.pos < b.pos := by omega
    simp [IntLigne.CmpBord, h1, h2]
  · intro h ha hb
    simp [IntLigne.CmpBord, h, ha, hb]
  · intro h ha hb
    simp [IntLigne.CmpBord, h, ha, hb]
  · intro h hs
    cases hb : b.start <;> simp [IntLigne.CmpBord, h, hs, hb]

/-- C1 witness: the five cases of `CmpBord_order` on concrete events. -/
theorem CmpBord_order_witness :
    IntLigne.CmpBord ⟨1, true, 0, 0, 0, 0⟩ ⟨2, false, 0, 0, 0, 0⟩ = -1 ∧
    IntLigne.CmpBord ⟨3, false, 0, 0, 0, 0⟩ ⟨2, true, 0, 0, 0, 0⟩ = 1 ∧
    IntLigne.CmpBord ⟨2, false, 0, 0, 0, 0⟩ ⟨2, true, 0, 0, 0, 0⟩ = -1 ∧
    IntLigne.CmpBord ⟨2, true, 0, 0, 0, 0⟩ ⟨2, false, 0, 0, 0, 0⟩ = 1 ∧
    IntLigne.CmpBord ⟨2, true, 0, 0, 0, 0⟩ ⟨2, true, 1, 0, 0, 0⟩ = 0 :=
  ⟨(CmpBord_order ⟨1, true, 0, 0, 0, 0⟩ ⟨2, false, 0, 0, 0, 0⟩).1 (by decide),
   (CmpBord_order ⟨3, false, 0, 0, 0, 0⟩ ⟨2, true, 0, 0, 0, 0⟩).2.1 (by decide),
   (CmpBord_order ⟨2, false, 0, 0, 0, 0⟩ ⟨2, true, 0, 0, 0, 0⟩).2.2.1 rfl rfl rfl,
   (CmpBord_order ⟨2, true, 0, 0, 0, 0⟩ ⟨2, false, 0, 0, 0, 0⟩).2.2.2.1 rfl rfl rfl,
   (CmpBord_order ⟨2, true, 0, 0, 0, 0⟩ ⟨2, true, 1, 0, 0, 0⟩).2.2.2.2 rfl rfl⟩

/-- C4 (as stated, refuted): at position 0 a start event compared with an end
event gives `1`, which is not negative. -/
theorem CmpBord_start_before_end_counterexample :
    ¬ (∀ a b : int_ligne_bord, a.pos = b.pos → a.start = true → b.start = false →
        IntLigne.CmpBord a b < 0) := by
  intro h
  have := h ⟨0, true, 0, 0, 0, 0⟩ ⟨0, false, 0, 0, 0, 0⟩ rfl rfl rfl
  revert this
  decide

/-- C4 (amended): at equal position a start event compared with an end event
gives `1` (positive), and the end event compared with the start event gives `-1`:
the end event sorts first. -/
theorem CmpBord_end_before_start (a b : int_ligne_bord)
    (hpos : a.pos = b.pos) (ha : a.start = true) (hb : b.start = false) :
    IntLigne.CmpBord a b = 1 ∧ 0 < IntLigne.CmpBord a b ∧ IntLigne.CmpBord b a = -1 := by
  have e1 : IntLigne.CmpBord a b = 1 := by simp [IntLigne.CmpBord, hpos, ha, hb]
  have e2 : IntLigne.CmpBord b a = -1 := by simp [IntLigne.CmpBord, hpos, ha, hb]
  refine ⟨e1, ?_, e2⟩
  rw [e1]; decide

/-- C4 witness: a start and an end event at position 7. -/
theorem CmpBord_end_before_start_witness :
    IntLigne.CmpBord ⟨7, true, 0, 0, 0, 0⟩ ⟨7, false, 1, 0, 0, 0⟩ = 1 ∧
    0 < IntLigne.CmpBord ⟨7, true, 0, 0, 0, 0⟩ ⟨7, false, 1, 0, 0, 0⟩ ∧
    IntLigne.CmpBord ⟨7, false, 1, 0, 0, 0⟩ ⟨7, true, 0, 0, 0, 0⟩ = -1 :=
  CmpBord_end_before_start ⟨7, true, 0, 0, 0, 0⟩ ⟨7, false, 1, 0, 0, 0⟩ rfl rfl rfl

/-- C5: the eight command codes are pairwise distinct, and masking a flags word
`c ||| h` with `descr_type_mask` gives back the command code `c` whenever the
extra bits `h` (any bit pattern) avoid the mask; `descr_dirty` is such a word. -/
theorem descr_type_mask_recovers_command :
    descr_commands.Nodup ∧
    descr_dirty &&& descr_type_mask = 0 ∧
    ∀ c ∈ descr_commands, ∀ h : Nat, h &&& descr_type_mask = 0 →
      (c ||| h) &&& descr_type_mask = c := by
  refine ⟨by decide, by decide, ?_⟩
  intro c hc h hh
  rw [Nat.and_comm, Nat.and_or_distrib_left, Nat.and_comm descr_type_mask h, hh, Nat.or_zero]
  revert c
  decide

/-- C5 witness: `descr_cubicto` stored together with the dirty bit. -/
theorem descr_type_mask_recovers_command_witness :
    (descr_cubicto ||| descr_dirty) &&& descr_type_mask = descr_cubicto :=
  descr_type_mask_recovers_command.2.2 descr_cubicto (by decide) descr_dirty (by decide)

/-- Helper: the title loop on a name without NUL, followed by its terminator. -/
theorem sp_action_get_title_loop_eq (s junk : List Char) (hs : ∀ c ∈ s, c ≠ NUL) :
    ∀ ret : List Char, sp_action_get_title_loop (s ++ NUL :: junk) ret
      = some (ret ++ s.filter (fun c => decide (c ≠ '_' ∧ c ≠ '.')) ++ [NUL]) := by
  induction s with
  | nil =>
    intro ret
    have h1 : NUL ≠ '_' := by decide
    have h2 : NUL ≠ '.' := by decide
    simp [sp_action_get_title_loop, h1, h2]
  | cons c s ih =>
    intro ret
    have hc : c ≠ NUL := hs c (List.mem_cons_self _ _)
    have ih2 := ih (fun x hx => hs x (List.mem_cons_of_mem _ hx))
    by_cases hk : c ≠ '_' ∧ c ≠ '.'
    · rw [List.cons_append, sp_action_get_title_loop, if_pos hk, if_neg hc, ih2]
      simp [List.filter_cons, hk]
    · rw [List.cons_append, sp_action_get_title_loop, if_neg hk, ih2]
      simp [List.filter_cons, hk]

/-- C6: for a name `s` (no NUL inside) followed by its terminating NUL,
`sp_action_get_title` returns the characters of `s` other than `_` and `.`, in
their order, followed by a NUL; the result has no `_` and no `.` and fits the
`strlen(src) + 1` characters allocated for it. -/
theorem sp_action_get_title_spec (s junk : List Char) (hs : ∀ c ∈ s, c ≠ NUL) :
    ∃ ret, sp_action_get_title (s ++ NUL :: junk) = some ret ∧
      ret = s.filter (fun c => decide (c ≠ '_' ∧ c ≠ '.')) ++ [NUL] ∧
      '_' ∉ ret ∧ '.' ∉ ret ∧ ret.length ≤ s.length + 1 := by
  refine ⟨_, ?_, rfl, ?_, ?_, ?_⟩
  · unfold sp_action_get_title
    rw [sp_action_get_title_loop_eq s junk hs]
    simp
  · intro h
    rcases List.mem_append.1 h with h | h
    · simpa using (List.mem_filter.1 h).2
    · revert h; decide
  · intro h
    rcases List.mem_append.1 h with h | h
    · simpa using (List.mem_filter.1 h).2
    · revert h; decide
  · simp only [List.length_append, List.length_singleton, Nat.add_le_add_iff_right]
    exact List.length_filter_le _ _

/-- C6 witness: the name `_Save as...`. -/
theorem sp_action_get_title_spec_witness :
    ∃ ret, sp_action_get_title
        (['_', 'S', 'a', 'v', 'e', ' ', 'a', 's', '.', '.', '.'] ++ NUL :: []) = some ret ∧
      ret = ['_', 'S', 'a', 'v', 'e', ' ', 'a', 's', '.', '.', '.'].filter
          (fun c => decide (c ≠ '_' ∧ c ≠ '.')) ++ [NUL] ∧
      '_' ∉ ret ∧ '.' ∉ ret ∧
      ret.length ≤ ['_', 'S', 'a', 'v', 'e', ' ', 'a', 's', '.', '.', '.'].length + 1 :=
  sp_action_get_title_spec ['_', 'S', 'a', 'v', 'e', ' ', 'a', 's', '.', '.', '.'] []
    (by decide)

mutual
/-- Helper: `sp_text_get_length` is the string lengths plus the line breaks. -/
theorem sp_text_get_length_eq_aux : ∀ item : SPObject,
    sp_text_get_length item = sumStringLengths item + countLineBreaks item
  | .SPString string => by simp [sp_text_get_length, sumStringLengths, countLineBreaks]
  | .element d children => by
    simp only [sp_text_get_length, sumStringLengths, countLineBreaks]
    rw [sp_text_get_length_children_eq_aux children]
    omega
/-- Helper: the same for the loop over the children. -/
theorem sp_text_get_length_children_eq_aux : ∀ children : List SPObject,
    sp_text_get_length_children children
      = sumStringLengthsList children + countLineBreaksList children
  | [] => by simp [sp_text_get_length_children, sumStringLengthsList, countLineBreaksList]
  | .SPString string :: rest => by
    simp only [sp_text_get_length_children, sumStringLengthsList, countLineBreaksList,
      sumStringLengths, countLineBreaks]
    rw [sp_text_get_length_children_eq_aux rest]
    omega
  | .element d cs :: rest => by
    simp only [sp_text_get_length_children, sumStringLengthsList, countLineBreaksList]
    rw [sp_text_get_length_children_eq_aux rest, sp_text_get_length_eq_aux (.element d cs)]
    omega
end

/-- C7: `sp_text_get_length item` is the sum of the lengths of all `SPString`s at or
below `item` plus the number of line-break objects at or below `item`, `item`
included. -/
theorem sp_text_get_length_counts (item : SPObject) :
    sp_text_get_length item = sumStringLengths item + countLineBreaks item :=
  sp_text_get_length_eq_aux item

/-- Sanity check of the embedding: on the sample text, inserting `X` at position 1
gives `aXbc` and returns position 2. -/
theorem sp_te_insert_sample :
    (sp_te_insert sample_env sample_state sample_item 1 [88]).map (fun r => (r.1.doc, r.2))
      = some (.element (plain_data .SPOther "svg:svg")
          [.element (plain_data .SPText "svg:text") [.SPString ['a', 'X', 'b', 'c']]], 2) := by
  decide

/-- C8: when `g_utf8_validate` rejects the bytes, `sp_te_insert` returns the
position it was given and leaves the document (every string and attribute) and
the layout as they were. -/
theorem sp_te_insert_rejects_invalid_utf8 (E : TextEnv) (st : TextState) (item : ObjPath)
    (position : Nat) (utf8 : List Nat) (h : E.g_utf8_validate utf8 = false) :
    sp_te_insert E st item position utf8 = some (st, position) := by
  unfold sp_te_insert
  simp [h]

/-- C8 witness: the byte `0xFF` offered to the sample text at position 1. -/
theorem sp_te_insert_rejects_invalid_utf8_witness :
    sp_te_insert sample_env sample_state sample_item 1 [255] = some (sample_state, 1) :=
  sp_te_insert_rejects_invalid_utf8 sample_env sample_state sample_item 1 [255] (by decide)

/-- Sanity check of the embedding: on the sample text, deleting between positions
1 and 2 gives `ac` and returns position 1, in either order of the positions. -/
theorem sp_te_delete_sample :
    (sp_te_delete sample_env sample_state sample_item 1 2).map (fun r => (r.1.doc, r.2))
      = some (.element (plain_data .SPOther "svg:svg")
          [.element (plain_data .SPText "svg:text") [.SPString ['a', 'c']]], 1) ∧
    (sp_te_delete sample_env sample_state sample_item 2 1).map (fun r => (r.1.doc, r.2))
      = some (.element (plain_data .SPOther "svg:svg")
          [.element (plain_data .SPText "svg:text") [.SPString ['a', 'c']]], 1) := by
  constructor <;> decide

/-- Helper: the two positions `sp_te_delete` works with do not depend on the
order of its arguments: they are the lesser and the greater. -/
theorem first_last_swap (a b : Nat) (h : a ≠ b) :
    (if a < b then a else b) = (if b < a then b else a) ∧
    (if a < b then b else a) = (if b < a then a else b) ∧
    (if a < b then a else b) = min a b ∧
    (if a < b then b else a) = max a b := by
  rcases Nat.lt_or_gt_of_ne h with hlt | hgt
  · have h2 : ¬ b < a := by omega
    simp [hlt, h2, Nat.min_eq_left (Nat.le_of_lt hlt), Nat.max_eq_right (Nat.le_of_lt hlt)]
  · have h2 : ¬ a < b := by omega
    simp [hgt, h2, Nat.min_eq_right (Nat.le_of_lt hgt), Nat.max_eq_left (Nat.le_of_lt hgt)]

/-- Helper: the iterator that the body of `sp_te_delete` returns is `first`, or
`first` as `validateIterator` of the layout afterwards leaves it. -/
theorem sp_te_delete_range_iterator (E : TextEnv) (st : TextState) (item : ObjPath)
    (first last : Nat) (st' : TextState) (r : Nat)
    (hr : sp_te_delete_range E st item first last = some (st', r)) :
    r = first ∨ r = st'.layout.validateIterator first := by
  unfold sp_te_delete_range at hr
  split at hr
  · simp at hr
  · split at hr
    · simp only [Option.some.injEq, Prod.mk.injEq] at hr
      exact Or.inl hr.2.symm
    · split at hr
      · split at hr
        · simp at hr
        · simp only [Option.some.injEq, Prod.mk.injEq] at hr
          obtain ⟨h1, h2⟩ := hr
          subst h1
          subst h2
          exact Or.inr rfl
      · simp at hr

/-- C9 (as stated, refuted): on the text `a b`, whose layout leaves out blanks at
the end, `sp_te_delete` between the positions 2 and 3 deletes `b`; the rebuilt
layout has one character, `validateIterator` brings the position 2 to its end,
and the iterator returned is 1, not the lesser position 2. -/
theorem sp_te_delete_returns_lesser_counterexample :
    ¬ (∀ (E : TextEnv) (st : TextState) (item : ObjPath) (a b : Nat) (st' : TextState)
        (r : Nat), sp_te_delete E st item a b = some (st', r) → r = min a b) := by
  intro h
  have hval : (sp_te_delete trimming_env blank_state sample_item 2 3).map
      (fun res => (res.1.doc, res.2))
      = some (.element (plain_data .SPOther "svg:svg")
          [.element (plain_data .SPText "svg:text") [.SPString ['a', ' ']]], 1) := by
    decide
  cases hres : sp_te_delete trimming_env blank_state sample_item 2 3 with
  | none => rw [hres] at hval; simp at hval
  | some res =>
    obtain ⟨st', r⟩ := res
    have h1 := h trimming_env blank_state sample_item 2 3 st' r hres
    rw [hres] at hval
    simp only [Option.map_some', Option.some.injEq, Prod.mk.injEq] at hval
    rw [hval.2] at h1
    revert h1
    decide

/-- C9 (amended): `sp_te_delete` gives the same document and the same iterator for
`(a, b)` and for `(b, a)`; when `a = b` nothing changes and `a` is returned;
otherwise the call is the deletion between the lesser and the greater position,
which returns the lesser position unchanged where that position has no source
object, and else, where the deletion goes through, returns the new document with
the lesser position as `validateIterator` of the rebuilt layout leaves it. -/
theorem sp_te_delete_order_independent (E : TextEnv) (st : TextState) (item : ObjPath)
    (a b : Nat) :
    sp_te_delete E st item a b = sp_te_delete E st item b a ∧
    (a = b → sp_te_delete E st item a b = some (st, a)) ∧
    (a ≠ b →
      sp_te_delete E st item a b = sp_te_delete_range E st item (min a b) (max a b)) ∧
    (a ≠ b → ∀ layout : Layout, te_get_layout st item = some layout →
      (layout.getSourceOfCharacter (min a b)).1 = none →
      sp_te_delete E st item a b = some (st, min a b)) ∧
    (a ≠ b → ∀ (layout : Layout) (start_item : ObjPath) (start end_ : ObjPath × Nat)
        (doc : SPObject),
      te_get_layout st item = some layout →
      (layout.getSourceOfCharacter (min a b)).1 = some start_item →
      delete_start_point st.doc start_item (layout.getSourceOfCharacter (min a b)).2
        = some start →
      delete_end_point st.doc item (layout.getSourceOfCharacter (max a b)).1
        (layout.getSourceOfCharacter (max a b)).2 = some end_ →
      delete_between E st.doc item start end_ = some doc →
      sp_te_delete E st item a b
        = some (⟨doc, E.rebuildLayout doc item⟩,
                (E.rebuildLayout doc item).validateIterator (min a b))) ∧
    (∀ (st' : TextState) (r : Nat), sp_te_delete E st item a b = some (st', r) →
      r = min a b ∨ r = st'.layout.validateIterator (min a b)) := by
  have hrange : a ≠ b →
      sp_te_delete E st item a b = sp_te_delete_range E st item (min a b) (max a b) := by
    intro hab
    have h1 := first_last_swap a b hab
    unfold sp_te_delete
    rw [if_neg hab, h1.2.2.1, h1.2.2.2]
  refine ⟨?_, ?_, hrange, ?_, ?_, ?_⟩
  · by_cases hab : a = b
    · subst hab; rfl
    · have hba : b ≠ a := fun e => hab e.symm
      rw [hrange hab]
      have h2 : sp_te_delete E st item b a
          = sp_te_delete_range E st item (min b a) (max b a) := by
        have h1 := first_last_swap b a hba
        unfold sp_te_delete
        rw [if_neg hba, h1.2.2.1, h1.2.2.2]
      rw [h2, Nat.min_comm b a, Nat.max_comm b a]
  · intro hab
    subst hab
    simp [sp_te_delete]
  · intro hab layout hl hsrc
    rw [hrange hab]
    unfold sp_te_delete_range
    simp only [hl, hsrc]
  · intro hab layout start_item start end_ doc hl hsrc hs he hd
    rw [hrange hab]
    unfold sp_te_delete_range
    simp only [hl, hsrc, hs, he, hd]
  · intro st' r hr
    by_cases hab : a = b
    · subst hab
      simp only [sp_te_delete, if_true, Option.some.injEq, Prod.mk.injEq] at hr
      left
      rw [← hr.2, Nat.min_self]
    · rw [hrange hab] at hr
      exact sp_te_delete_range_iterator E st item _ _ st' r hr

/-- C9 witness: on the sample text `abc`, the positions 2 and 1 give what 1 and 2
give and equal positions change nothing; on the text `a b` the position 3, its
end, has no source object, so with the positions 5 and 3 nothing changes and 3
comes back; between 2 and 1 of `abc` the deletion goes through and leaves `ac`
with position 1. -/
theorem sp_te_delete_order_independent_witness :
    sp_te_delete sample_env sample_state sample_item 2 1
      = sp_te_delete sample_env sample_state sample_item 1 2 ∧
    sp_te_delete sample_env sample_state sample_item 2 2 = some (sample_state, 2) ∧
    sp_te_delete sample_env sample_state sample_item 2 1
      = sp_te_delete_range sample_env sample_state sample_item (min 2 1) (max 2 1) ∧
    sp_te_delete trimming_env blank_state sample_item 5 3 = some (blank_state, min 5 3) ∧
    sp_te_delete sample_env sample_state sample_item 2 1
      = some (⟨.element (plain_data .SPOther "svg:svg")
                [.element (plain_data .SPText "svg:text") [.SPString ['a', 'c']]],
              sample_env.rebuildLayout
                (.element (plain_data .SPOther "svg:svg")
                  [.element (plain_data .SPText "svg:text") [.SPString ['a', 'c']]])
                sample_item⟩,
              (sample_env.rebuildLayout
                (.element (plain_data .SPOther "svg:svg")
                  [.element (plain_data .SPText "svg:text") [.SPString ['a', 'c']]])
                sample_item).validateIterator (min 2 1)) :=
  ⟨(sp_te_delete_order_independent sample_env sample_state sample_item 2 1).1,
   (sp_te_delete_order_independent sample_env sample_state sample_item 2 2).2.1 rfl,
   (sp_te_delete_order_independent sample_env sample_state sample_item 2 1).2.2.1 (by decide),
   (sp_te_delete_order_independent trimming_env blank_state sample_item 5 3).2.2.2.1
     (by decide) blank_state.layout rfl rfl,
   (sp_te_delete_order_independent sample_env sample_state sample_item 2 1).2.2.2.2.1
     (by decide) sample_state.layout [0, 0] ([0, 0], 1) ([0, 0], 2)
     (.element (plain_data .SPOther "svg:svg")
       [.element (plain_data .SPText "svg:text") [.SPString ['a', 'c']]])
     rfl rfl rfl rfl rfl⟩

/-- Helper: queueing an action leaves `_with_gui` alone. -/
theorem push_action_with_gui (name : String) (value : Variant) (app : InkscapeApplication) :
    (push_action name value app)._with_gui = app._with_gui := rfl

/-- Helper: queueing a string option leaves `_with_gui` alone. -/
theorem push_string_option_with_gui (options : VariantDict) (key : String)
    (app : InkscapeApplication) :
    (push_string_option options key app)._with_gui = app._with_gui := by
  unfold push_string_option
  split
  · simp only []
    split <;> rfl
  · rfl

/-- Helper: queueing an option without argument leaves `_with_gui` alone. -/
theorem push_flag_option_with_gui (options : VariantDict) (key name : String)
    (app : InkscapeApplication) :
    (push_flag_option options key name app)._with_gui = app._with_gui := by
  unfold push_flag_option
  split <;> rfl

/-- Helper: the section `ACTIONS` leaves `_with_gui` alone. -/
theorem handle_actions_with_gui (E : AppEnv) (options : VariantDict)
    (app : InkscapeApplication) :
    (handle_actions E options app).1._with_gui = app._with_gui := by
  unfold handle_actions
  split <;> rfl

/-- Helper: the section `OPEN/IMPORT` leaves `_with_gui` alone. -/
theorem handle_open_with_gui (options : VariantDict) (app : InkscapeApplication) :
    (handle_open options app)._with_gui = app._with_gui := by
  unfold handle_open
  simp only [push_flag_option_with_gui, push_string_option_with_gui]
  split <;> rfl

/-- Helper: the second section `QUERY` leaves `_with_gui` alone. -/
theorem handle_query_with_gui (options : VariantDict) (app : InkscapeApplication) :
    (handle_query options app)._with_gui = app._with_gui := by
  unfold handle_query
  simp only [push_flag_option_with_gui, push_string_option_with_gui]

/-- Helper: the section `PROCESS` leaves `_with_gui` alone. -/
theorem handle_process_with_gui (options : VariantDict) (app : InkscapeApplication) :
    (handle_process options app)._with_gui = app._with_gui := by
  unfold handle_process
  simp only [push_flag_option_with_gui, push_string_option_with_gui]

/-- Helper: past the print options, `_with_gui` at the end of
`on_handle_local_options` is what the section `GUI` left, whether the call
returns or throws. -/
theorem on_handle_local_options_with_gui (E : AppEnv) (app : InkscapeApplication)
    (options : VariantDict)
    (hv : options.contains "version" = false)
    (he : options.contains "extensions-directory" = false)
    (hl : options.contains "verb-list" = false)
    (ha : options.contains "action-list" = false) :
    (on_handle_local_options E app (some options)).1._with_gui
      = (handle_gui options app)._with_gui := by
  unfold on_handle_local_options
  simp only [hv, he, hl, ha, Bool.false_eq_true, if_false]
  have h := handle_actions_with_gui E options (handle_gui options app)
  split
  · next app' heq =>
    rw [heq] at h
    exact h
  · next app' heq =>
    rw [heq] at h
    simp only [handle_process_with_gui, handle_query_with_gui, handle_open_with_gui]
    exact h

/-- Sanity check of the embedding: `--actions="query-x;select:rect1;open-page:12"
--query-x` queues the three actions in the order given, then the `query-x` of the
dedicated option; a value that is no integer makes `std::stoi` throw, with the
actions before it queued. -/
theorem on_handle_local_options_sample :
    (on_handle_local_options sample_app_env sample_app
      (some [("actions", Variant.string "query-x;select:rect1;open-page:12"),
             ("query-x", Variant.none)]))
      = ({ sample_app with
            _with_gui := false
            _command_line_actions :=
              [("query-x", Variant.none), ("select", Variant.string "rect1"),
               ("open-page", Variant.int32 12), ("query-x", Variant.none)] },
          Outcome.returned (-1)) ∧
    (on_handle_local_options sample_app_env sample_app
      (some [("actions", Variant.string "query-x;open-page:x;select:r"),
             ("query-x", Variant.none)]))
      = ({ sample_app with
            _with_gui := false
            _command_line_actions := [("query-x", Variant.none)] },
          Outcome.thrown) := by
  constructor <;> decide

/-- C10: when the option set has at least one of the query options or of
`export-type`, `export-file`, `export-overwrite`, and none of the four print
options, `on_handle_local_options` ends with `_with_gui = false`, whatever else
is present (`with-gui` included) and whether it returns or throws. -/
theorem on_handle_local_options_query_export_without_gui (E : AppEnv)
    (app : InkscapeApplication) (options : VariantDict)
    (hq : options.contains "query-id" = true ∨ options.contains "query-x" = true ∨
      options.contains "query-all" = true ∨ options.contains "query-y" = true ∨
      options.contains "query-width" = true ∨ options.contains "query-height" = true ∨
      options.contains "export-type" = true ∨ options.contains "export-file" = true ∨
      options.contains "export-overwrite" = true)
    (hv : options.contains "version" = false)
    (he : options.contains "extensions-directory" = false)
    (hl : options.contains "verb-list" = false)
    (ha : options.contains "action-list" = false) :
    (on_handle_local_options E app (some options)).1._with_gui = false := by
  rw [on_handle_local_options_with_gui E app options hv he hl ha]
  unfold handle_gui
  have hor : (options.contains "query-id" ||
     options.contains "query-x" ||
     options.contains "query-all" ||
     options.contains "query-y" ||
     options.contains "query-width" ||
     options.contains "query-height" ||
     options.contains "export-type" ||
     options.contains "export-file" ||
     options.contains "export-overwrite") = true := by
    simp only [Bool.or_eq_true]
    tauto
  simp only [hor, if_true]

/-- C10 witness: `--with-gui --query-x` on the sample application, which starts
with `_with_gui = true`. -/
theorem on_handle_local_options_query_export_without_gui_witness :
    sample_app._with_gui = true ∧
    (on_handle_local_options sample_app_env sample_app
      (some [("with-gui", Variant.none), ("query-x", Variant.none)])).1._with_gui = false :=
  ⟨rfl, on_handle_local_options_query_export_without_gui sample_app_env sample_app
    [("with-gui", Variant.none), ("query-x", Variant.none)]
    (Or.inr (Or.inl (by decide))) (by decide) (by decide) (by decide) (by decide)⟩

/-- C11: with `version`, `extensions-directory`, `verb-list` or `action-list` among
the options, `on_handle_local_options` returns `EXIT_SUCCESS` and the application
(`_with_gui`, `_command_line_actions`, every member of `_file_export`) is as
before, whatever else is among the options. -/
theorem on_handle_local_options_print_options (E : AppEnv) (app : InkscapeApplication)
    (options : VariantDict)
    (h : options.contains "version" = true ∨ options.contains "extensions-directory" = true ∨
      options.contains "verb-list" = true ∨ options.contains "action-list" = true) :
    on_handle_local_options E app (some options) = (app, Outcome.returned EXIT_SUCCESS) := by
  unfold on_handle_local_options
  rcases h with h | h | h | h
  · simp [h]
  · by_cases h1 : options.contains "version" = true <;> simp [h, h1]
  · by_cases h1 : options.contains "version" = true <;>
    by_cases h2 : options.contains "extensions-directory" = true <;> simp [h, h1, h2]
  · by_cases h1 : options.contains "version" = true <;>
    by_cases h2 : options.contains "extensions-directory" = true <;>
    by_cases h3 : options.contains "verb-list" = true <;> simp [h, h1, h2, h3]

/-- C11 witness: `--verb-list` together with `--without-gui`, `--query-x`, an
`--actions` string and `--export-file`. -/
theorem on_handle_local_options_print_options_witness :
    on_handle_local_options sample_app_env sample_app
      (some [("without-gui", Variant.none), ("query-x", Variant.none),
             ("actions", Variant.string "select:rect1"),
             ("export-file", Variant.string "out.png"), ("verb-list", Variant.none)])
      = (sample_app, Outcome.returned EXIT_SUCCESS) :=
  on_handle_local_options_print_options sample_app_env sample_app
    [("without-gui", Variant.none), ("query-x", Variant.none),
     ("actions", Variant.string "select:rect1"),
     ("export-file", Variant.string "out.png"), ("verb-list", Variant.none)]
    (Or.inr (Or.inr (Or.inl (by decide))))

/-- Helper: the queue after a string option has been handled. -/
theorem push_string_option_queue (options : VariantDict) (key : String)
    (app : InkscapeApplication) :
    (push_string_option options key app)._command_line_actions
      = app._command_line_actions ++ string_option_action options key := by
  unfold push_string_option string_option_action
  by_cases h1 : options.contains key = true
  · by_cases h2 : options.lookup_string key = ""
    · simp [h1, h2]
    · simp [h1, h2, push_action]
  · simp [h1]

/-- Helper: the queue after an option without argument has been handled. -/
theorem push_flag_option_queue (options : VariantDict) (key name : String)
    (app : InkscapeApplication) :
    (push_flag_option options key name app)._command_line_actions
      = app._command_line_actions ++ flag_option_action options key name := by
  unfold push_flag_option flag_option_action
  by_cases h1 : options.contains key = true
  · simp [h1, push_action]
  · simp [h1]

/-- Helper: the queue after the sections `OPEN/IMPORT`, `QUERY` and `PROCESS`. -/
theorem handle_process_query_open_queue (options : VariantDict) (app : InkscapeApplication) :
    (handle_process options (handle_query options (handle_open options app)))._command_line_actions
      = app._command_line_actions ++ dedicated_actions options := by
  unfold handle_process handle_query handle_open dedicated_actions
  simp only [push_string_option_queue, push_flag_option_queue, List.append_assoc]
  by_cases h : options.contains "pdf-page" = true
  · simp [h, push_action]
  · simp [h]

/-- Helper: the names queued for a string option. -/
theorem string_option_action_names (options : VariantDict) (key : String) :
    List.Sublist ((string_option_action options key).map Prod.fst) [key] := by
  unfold string_option_action
  split
  · simp
  · simp

/-- Helper: the names queued for an option without argument. -/
theorem flag_option_action_names (options : VariantDict) (key name : String) :
    List.Sublist ((flag_option_action options key name).map Prod.fst) [name] := by
  unfold flag_option_action
  split
  · simp
  · simp

/-- Helper: the names of the actions of the dedicated options follow the documented order. -/
theorem dedicated_actions_names (options : VariantDict) :
    List.Sublist ((dedicated_actions options).map Prod.fst) dedicated_order := by
  have hopen : List.Sublist ((if options.contains "pdf-page" then
      [("open-page", Variant.int32 (options.lookup_int "pdf-page"))] else []).map Prod.fst)
      ["open-page"] := by
    split <;> simp
  have horder : dedicated_order = ["open-page"] ++ ["convert-dpi-method"]
      ++ ["no-convert-baseline"] ++ ["query-id"] ++ ["query-all"] ++ ["query-x"] ++ ["query-y"]
      ++ ["query-width"] ++ ["query-height"] ++ ["vacuum-defs"] ++ ["select"] ++ ["verb"] := rfl
  rw [horder]
  unfold dedicated_actions
  simp only [List.map_append]
  exact ((((((((((hopen.append (string_option_action_names _ _)).append
    (flag_option_action_names _ _ _)).append (string_option_action_names _ _)).append
    (flag_option_action_names _ _ _)).append (flag_option_action_names _ _ _)).append
    (flag_option_action_names _ _ _)).append (flag_option_action_names _ _ _)).append
    (flag_option_action_names _ _ _)).append (flag_option_action_names _ _ _)).append
    (string_option_action_names _ _)).append (string_option_action_names _ _)

/-- C12: when no print option is given and the `actions` string is handled without
an exception, the queue at the end is the queue left by the section `ACTIONS`
followed by the actions of the dedicated options in the documented order: their
names are a sublist of `open-page`, `convert-dpi-method`, `no-convert-baseline`,
`query-id`, `query-all`, `query-x`, `query-y`, `query-width`, `query-height`,
`vacuum-defs`, `select`, `verb`, and no other query action stands before a queued
`query-id` among them. -/
theorem on_handle_local_options_dedicated_order (E : AppEnv) (app : InkscapeApplication)
    (options : VariantDict)
    (hv : options.contains "version" = false)
    (he : options.contains "extensions-directory" = false)
    (hl : options.contains "verb-list" = false)
    (ha : options.contains "action-list" = false)
    (ht : (handle_actions E options (handle_gui options app)).2 = false) :
    (on_handle_local_options E app (some options)).1._command_line_actions
      = (handle_actions E options (handle_gui options app)).1._command_line_actions
        ++ dedicated_actions options ∧
    List.Sublist ((dedicated_actions options).map Prod.fst) dedicated_order ∧
    ∀ before after : List String,
      (dedicated_actions options).map Prod.fst = before ++ "query-id" :: after →
      ∀ q ∈ ["query-all", "query-x", "query-y", "query-width", "query-height"], q ∉ before := by
  refine ⟨?_, dedicated_actions_names options, ?_⟩
  · unfold on_handle_local_options
    simp only [hv, he, hl, ha, Bool.false_eq_true, if_false]
    split
    · next app' heq => rw [heq] at ht; simp at ht
    · next app' heq =>
      rw [heq]
      exact handle_process_query_open_queue options app'
  · intro before after hsplit q hq hmem
    have hsub := dedicated_actions_names options
    rw [hsplit] at hsub
    have hpair : List.Sublist [q, "query-id"] (before ++ "query-id" :: after) := by
      obtain ⟨l1, l2, rfl⟩ := List.append_of_mem hmem
      have h1 : List.Sublist [q] (l1 ++ q :: l2) :=
        (List.singleton_sublist.2 (List.mem_append_right _ (List.mem_cons_self _ _)))
      have h2 : List.Sublist ["query-id"] ("query-id" :: after) :=
        List.singleton_sublist.2 (List.mem_cons_self _ _)
      exact h1.append h2
    have hbad := hpair.trans hsub
    have key : ∀ q ∈ ["query-all", "query-x", "query-y", "query-width", "query-height"],
        ¬ List.Sublist [q, "query-id"] dedicated_order := by decide
    exact key q hq hbad

/-- C12 witness: `--verb=FileSave --query-x --query-id=rect1 --pdf-page=2` after an
`--actions` string: the dedicated actions are queued as `open-page`, `query-id`,
`query-x`, `verb`, behind the action of the string. -/
theorem on_handle_local_options_dedicated_order_witness :
    (on_handle_local_options sample_app_env sample_app
      (some [("verb", Variant.string "FileSave"), ("query-x", Variant.none),
             ("query-id", Variant.string "rect1"), ("pdf-page", Variant.int32 2),
             ("actions", Variant.string "select:rect2")])).1._command_line_actions
      = [("select", Variant.string "rect2")]
        ++ [("open-page", Variant.int32 2), ("query-id", Variant.string "rect1"),
            ("query-x", Variant.none), ("verb", Variant.string "FileSave")] :=
  (on_handle_local_options_dedicated_order sample_app_env sample_app
    [("verb", Variant.string "FileSave"), ("query-x", Variant.none),
     ("query-id", Variant.string "rect1"), ("pdf-page", Variant.int32 2),
     ("actions", Variant.string "select:rect2")]
    (by decide) (by decide) (by decide) (by decide) (by decide)).1

/-- Helper: a key found in a list is found in the list with more entries behind. -/
theorem lookup_append_of_some {α β : Type} [BEq α] [LawfulBEq α] (l l2 : List (α × β)) (k : α) (v : β)
    (h : l.lookup k = some v) : (l ++ l2).lookup k = some v := by
  rw [List.lookup_append, h]
  rfl

/-- Helper: an entry found by `lookup` is a member of the list. -/
theorem mem_of_lookup_eq_some {β : Type} (l : List (Nat × β)) (k : Nat) (v : β)
    (h : l.lookup k = some v) : (k, v) ∈ l := by
  obtain ⟨l1, l2, hl, _⟩ := (List.lookup_eq_some_iff (α := Nat)).1 h
  rw [hl]
  simp

/-- Helper: after the first part of `sp_verb_get_action` the view has the table `actions`. -/
theorem find_action_table_lookup (s : VerbState) (view : SPView) :
    (find_action_table s view).1.verb_tables.lookup view = some (find_action_table s view).2 := by
  unfold find_action_table
  split
  · next actions h => exact h
  · next h =>
    simp only []
    rw [List.lookup_append, h]
    simp [List.lookup]

/-- Helper: the first part of `sp_verb_get_action` keeps what is stored. -/
theorem find_action_table_stored (s : VerbState) (view' : SPView) (verb : sp_verb_t)
    (view : SPView) (action : SPAction) (h : action_stored s verb view action) :
    action_stored (find_action_table s view').1 verb view action := by
  unfold find_action_table
  split
  · exact h
  · obtain ⟨actions, table, h1, h2, h3⟩ := h
    refine ⟨actions, table, lookup_append_of_some _ _ _ _ h1, ?_, h3⟩
    simp only []
    have hlt : actions < s.action_tables.length := by
      obtain ⟨hlt, _⟩ := List.getElem?_eq_some.1 h2
      exact hlt
    rw [List.getElem?_append_left hlt]
    exact h2

/-- Helper: the second part of `sp_verb_get_action` keeps what is stored. -/
theorem get_action_in_stored (E : VerbEnv) (s s' : VerbState) (actions : Nat)
    (verb' : sp_verb_t) (view' : SPView) (r : Option SPAction)
    (hcall : get_action_in E s actions verb' view' = some (s', r))
    (verb : sp_verb_t) (view : SPView) (action : SPAction)
    (h : action_stored s verb view action) : action_stored s' verb view action := by
  unfold get_action_in at hcall
  split at hcall
  · simp at hcall
  · next table' htable' =>
    split at hcall
    · simp only [Option.some.injEq, Prod.mk.injEq] at hcall
      rw [← hcall.1]; exact h
    · split at hcall
      · simp at hcall
      · next created n hcreate =>
        simp only [Option.some.injEq, Prod.mk.injEq] at hcall
        rw [← hcall.1]
        obtain ⟨t, table, h1, h2, h3⟩ := h
        by_cases ht : actions = t
        · subst ht
          rw [htable'] at h2
          simp only [Option.some.injEq] at h2
          subst h2
          refine ⟨actions, table' ++ [(verb', created)], h1, ?_, lookup_append_of_some _ _ _ _ h3⟩
          simp only []
          have hlt : actions < s.action_tables.length := by
            obtain ⟨hlt, _⟩ := List.getElem?_eq_some.1 htable'
            exact hlt
          rw [List.getElem?_set]
          simp [hlt]
        · refine ⟨t, table, h1, ?_, h3⟩
          simp only []
          rw [List.getElem?_set_ne ht]
          exact h2
      · next n hcreate =>
        simp only [Option.some.injEq, Prod.mk.injEq] at hcall
        rw [← hcall.1]
        exact h

/-- Helper: a call of `sp_verb_get_action` keeps what is stored. -/
theorem sp_verb_get_action_keeps_stored (E : VerbEnv) (s s' : VerbState)
    (verb' : sp_verb_t) (view' : SPView) (r : Option SPAction)
    (hcall : sp_verb_get_action E s verb' view' = some (s', r))
    (verb : sp_verb_t) (view : SPView) (action : SPAction)
    (h : action_stored s verb view action) : action_stored s' verb view action :=
  get_action_in_stored E _ s' _ verb' view' r hcall verb view action
    (find_action_table_stored s view' verb view action h)

/-- Helper: an action that is stored is the one `sp_verb_get_action` returns, and
the call changes nothing. -/
theorem sp_verb_get_action_of_stored (E : VerbEnv) (s : VerbState)
    (verb : sp_verb_t) (view : SPView) (action : SPAction)
    (h : action_stored s verb view action) :
    sp_verb_get_action E s verb view = some (s, some action) := by
  obtain ⟨actions, table, h1, h2, h3⟩ := h
  unfold sp_verb_get_action find_action_table
  simp only [h1]
  unfold get_action_in
  simp only [h2, h3]

/-- Helper: a non-null action returned by `sp_verb_get_action` is stored afterwards. -/
theorem sp_verb_get_action_stores (E : VerbEnv) (s s' : VerbState)
    (verb : sp_verb_t) (view : SPView) (action : SPAction)
    (hcall : sp_verb_get_action E s verb view = some (s', some action)) :
    action_stored s' verb view action := by
  unfold sp_verb_get_action at hcall
  have hlook := find_action_table_lookup s view
  generalize find_action_table s view = f at hcall hlook
  unfold get_action_in at hcall
  split at hcall
  · simp at hcall
  · next table htable =>
    split at hcall
    · next found hfound =>
      simp only [Option.some.injEq, Prod.mk.injEq] at hcall
      obtain ⟨h1, h2⟩ := hcall
      subst h1
      subst h2
      exact ⟨f.2, table, hlook, htable, hfound⟩
    · next hnone =>
      split at hcall
      · simp at hcall
      · next created n hcreate =>
        simp only [Option.some.injEq, Prod.mk.injEq] at hcall
        obtain ⟨h1, h2⟩ := hcall
        subst h1
        subst h2
        refine ⟨f.2, table ++ [(verb, created)], hlook, ?_, ?_⟩
        · simp only []
          have hlt : f.2 < f.1.action_tables.length := by
            obtain ⟨hlt, _⟩ := List.getElem?_eq_some.1 htable
            exact hlt
          rw [List.getElem?_set]
          simp [hlt]
        · rw [List.lookup_append, hnone]
          simp [List.lookup]
      · simp at hcall

/-- Helper: a sequence of calls keeps what is stored. -/
theorem run_verb_calls_keeps_stored (E : VerbEnv) (calls : List VerbCall) :
    ∀ (s s' : VerbState), run_verb_calls E s calls = some s' →
    ∀ (verb : sp_verb_t) (view : SPView) (action : SPAction),
      action_stored s verb view action → action_stored s' verb view action := by
  induction calls with
  | nil =>
    intro s s' hrun verb view action h
    simp only [run_verb_calls, Option.some.injEq] at hrun
    rw [← hrun]; exact h
  | cons call calls ih =>
    intro s s' hrun verb view action h
    cases call with
    | get_action verb' view' =>
      simp only [run_verb_calls] at hrun
      split at hrun
      · simp at hrun
      · next s1 r hcall =>
        exact ih s1 s' hrun verb view action
          (sp_verb_get_action_keeps_stored E s s1 verb' view' r hcall verb view action h)
    | register factory =>
      simp only [run_verb_calls] at hrun
      exact ih _ s' hrun verb view action h

/-- Helper: the first part of `sp_verb_get_action` keeps the tables separate, and
the table it gives is an allocated one. -/
theorem find_action_table_separate (s : VerbState) (view : SPView)
    (h : tables_separate s) :
    tables_separate (find_action_table s view).1 ∧
    (find_action_table s view).1.action_tables.length ≥ s.action_tables.length := by
  unfold find_action_table
  split
  · exact ⟨h, Nat.le_refl _⟩
  · obtain ⟨hnd, hlt⟩ := h
    refine ⟨⟨?_, ?_⟩, ?_⟩
    · simp only [List.map_append, List.map_cons, List.map_nil]
      refine List.Nodup.append hnd (List.nodup_singleton _) ?_
      intro t ht1 ht2
      have h1 := hlt t ht1
      simp only [List.mem_singleton] at ht2
      omega
    · intro t ht
      simp only [List.map_append, List.map_cons, List.map_nil, List.mem_append,
        List.mem_singleton] at ht
      simp only [List.length_append, List.length_singleton]
      rcases ht with ht | ht
      · have := hlt t ht; omega
      · omega
    · simp

/-- Helper: the second part of `sp_verb_get_action` keeps the tables separate. -/
theorem get_action_in_separate (E : VerbEnv) (s s' : VerbState) (actions : Nat)
    (verb : sp_verb_t) (view : SPView) (r : Option SPAction)
    (hcall : get_action_in E s actions verb view = some (s', r))
    (h : tables_separate s) : tables_separate s' := by
  unfold get_action_in at hcall
  split at hcall
  · simp at hcall
  · split at hcall
    · simp only [Option.some.injEq, Prod.mk.injEq] at hcall
      rw [← hcall.1]; exact h
    · split at hcall
      · simp at hcall
      · simp only [Option.some.injEq, Prod.mk.injEq] at hcall
        rw [← hcall.1]
        obtain ⟨hnd, hlt⟩ := h
        refine ⟨hnd, ?_⟩
        intro t ht
        simp only [List.length_set]
        exact hlt t ht
      · simp only [Option.some.injEq, Prod.mk.injEq] at hcall
        rw [← hcall.1]
        exact h

/-- Helper: a sequence of calls keeps the tables separate. -/
theorem run_verb_calls_separate (E : VerbEnv) (calls : List VerbCall) :
    ∀ (s s' : VerbState), run_verb_calls E s calls = some s' →
      tables_separate s → tables_separate s' := by
  induction calls with
  | nil =>
    intro s s' hrun h
    simp only [run_verb_calls, Option.some.injEq] at hrun
    rw [← hrun]; exact h
  | cons call calls ih =>
    intro s s' hrun h
    cases call with
    | get_action verb view =>
      simp only [run_verb_calls] at hrun
      split at hrun
      · simp at hrun
      · next s1 r hcall =>
        exact ih s1 s' hrun
          (get_action_in_separate E _ s1 _ verb view r hcall
            (find_action_table_separate s view h).1)
    | register factory =>
      simp only [run_verb_calls] at hrun
      exact ih _ s' hrun h

/-- C13: once `sp_verb_get_action (verb, view)` has returned a non-null action, that
action is stored for the verb in the table of the view, and every later call with the same verb and view, after any calls of
`sp_verb_get_action` and `sp_verb_register` that did not abort, returns the same
action and leaves the state as it is, so it creates no action; and in every state
reached from the start, two different views have different tables, each one an
allocated table. -/
theorem sp_verb_get_action_one_per_verb_and_view (E : VerbEnv) :
    (∀ (s s1 : VerbState) (verb : sp_verb_t) (view : SPView) (action : SPAction),
      sp_verb_get_action E s verb view = some (s1, some action) →
      action_stored s1 verb view action ∧
      ∀ (calls : List VerbCall) (s2 : VerbState), run_verb_calls E s1 calls = some s2 →
        sp_verb_get_action E s2 verb view = some (s2, some action)) ∧
    (∀ (calls : List VerbCall) (s : VerbState),
      run_verb_calls E (VerbState.initial E) calls = some s →
      ∀ (view1 view2 : SPView) (actions1 actions2 : Nat), view1 ≠ view2 →
        s.verb_tables.lookup view1 = some actions1 →
        s.verb_tables.lookup view2 = some actions2 →
        actions1 ≠ actions2 ∧ actions1 < s.action_tables.length ∧
          actions2 < s.action_tables.length) := by
  constructor
  · intro s s1 verb view action hcall
    have hstored := sp_verb_get_action_stores E s s1 verb view action hcall
    refine ⟨hstored, ?_⟩
    intro calls s2 hrun
    exact sp_verb_get_action_of_stored E s2 verb view action
      (run_verb_calls_keeps_stored E calls s1 s2 hrun verb view action hstored)
  · intro calls s hrun view1 view2 actions1 actions2 hne h1 h2
    have hinit : tables_separate (VerbState.initial E) := by
      refine ⟨by simp [VerbState.initial], ?_⟩
      intro t ht
      simp [VerbState.initial] at ht
    obtain ⟨hnd, hlt⟩ := run_verb_calls_separate E calls _ s hrun hinit
    have m1 := mem_of_lookup_eq_some _ _ _ h1
    have m2 := mem_of_lookup_eq_some _ _ _ h2
    refine ⟨?_, hlt _ (List.mem_map_of_mem Prod.snd m1), hlt _ (List.mem_map_of_mem Prod.snd m2)⟩
    intro heq
    have := List.inj_on_of_nodup_map hnd m1 m2 heq
    simp only [Prod.mk.injEq] at this
    exact hne this.1

/-- C13 witness: verb 2 is retrieved for view 7 from the start; after three more
retrievals and a registration it is retrieved again. The views 7 and 8 then have
the tables 0 and 1. -/
theorem sp_verb_get_action_one_per_verb_and_view_witness :
    (∀ s2 : VerbState,
      run_verb_calls sample_verb_env
        ⟨[(7, 0)], [[(2, 0)]], [], 3, 1⟩
        [.get_action 1 7, .get_action 2 8, .register (fun _ _ n => (some n, n + 1)),
         .get_action 3 7] = some s2 →
      sp_verb_get_action sample_verb_env s2 2 7 = some (s2, some 0)) ∧
    ((0 : Nat) ≠ 1 ∧ 0 < 2 ∧ 1 < 2) :=
  ⟨((sp_verb_get_action_one_per_verb_and_view sample_verb_env).1
      (VerbState.initial sample_verb_env) ⟨[(7, 0)], [[(2, 0)]], [], 3, 1⟩ 2 7 0 rfl).2
      [.get_action 1 7, .get_action 2 8, .register (fun _ _ n => (some n, n + 1)),
       .get_action 3 7],
   (sp_verb_get_action_one_per_verb_and_view sample_verb_env).2
      [.get_action 2 7, .get_action 2 8]
      ⟨[(7, 0), (8, 1)], [[(2, 0)], [(2, 1)]], [], 3, 2⟩ rfl 7 8 0 1 (by decide) rfl rfl⟩

/-- C16 (the code at the example of the claim): on the paragraph `abc`,
`<font>` blank `</font>`, `def`, with `Char.isWhitespace` for `g_unichar_isspace`,
`tidy_operator_styled_whitespace` applied to the blank string returns true and
leaves `abc`, `<font></font>`, `def` followed by the blank: the blank is appended to
`def`, not put in front of it, and the character sequence `abc def` of the
paragraph becomes `abcdef` followed by a blank. -/
theorem tidy_operator_styled_whitespace_appends :
    tidy_operator_styled_whitespace Char.isWhitespace
      (paragraph_doc [.SPString ['a', 'b', 'c'], font_span [.SPString [' ']],
        .SPString ['d', 'e', 'f']]) [0, 1, 0]
      = some (paragraph_doc [.SPString ['a', 'b', 'c'], font_span [],
          .SPString ['d', 'e', 'f', ' ']], none, true) ∧
    character_sequence (paragraph_doc [.SPString ['a', 'b', 'c'], font_span [.SPString [' ']],
        .SPString ['d', 'e', 'f']]) = ['a', 'b', 'c', ' ', 'd', 'e', 'f'] ∧
    character_sequence (paragraph_doc [.SPString ['a', 'b', 'c'], font_span [],
        .SPString ['d', 'e', 'f', ' ']]) = ['a', 'b', 'c', 'd', 'e', 'f', ' '] ∧
    tidy_operator_styled_whitespace Char.isWhitespace
      (paragraph_doc [.SPString ['a', 'b', 'c'], font_span [.SPString [' ']],
        .SPString ['d', 'e', 'f']]) [0, 1, 0]
      ≠ some (paragraph_doc [.SPString ['a', 'b', 'c'], font_span [],
          .SPString [' ', 'd', 'e', 'f']], none, true) := by
  refine ⟨by decide, by decide, by decide, by decide⟩

/-- Sanity check of the model: the sample path converts to its seven points, the
old polyline being dropped. -/
theorem Convert_sample :
    (Path.Convert sample_geometry (1 / 10) sample_path).pts
      = [⟨polyline_moveto, ⟨0, 0⟩⟩, ⟨polyline_lineto, ⟨4, 0⟩⟩, ⟨polyline_lineto, ⟨5, 1⟩⟩,
         ⟨polyline_lineto, ⟨6, 2⟩⟩, ⟨polyline_lineto, ⟨7, 3⟩⟩, ⟨polyline_lineto, ⟨8, 4⟩⟩,
         ⟨polyline_lineto, ⟨0, 0⟩⟩] := by
  norm_num [Path.Convert, sample_geometry, sample_path, convert_commands, convert_command,
    RecCubicTo, line_point, polyline_lineto, polyline_moveto]

/-- Helper: descriptions with the same commands have the same control points
among their first `n` commands. -/
theorem control_points_take_same (l1 : List path_descr) :
    ∀ (l2 : List path_descr) (n : Nat), same_commands l1 l2 →
      control_points (l1.take n) = control_points (l2.take n) := by
  induction l1 with
  | nil =>
    intro l2 n h
    cases l2 with
    | nil => rfl
    | cons b bs => exact absurd h (by simp [same_commands])
  | cons a as ih =>
    intro l2 n h
    cases l2 with
    | nil => exact absurd h (by simp [same_commands])
    | cons b bs =>
      obtain ⟨_, _, _, hd, hrest⟩ := h
      cases n with
      | zero => rfl
      | succ n =>
        have := ih bs n hrest
        simp only [control_points, List.take_succ_cons, List.filterMap_cons] at this ⊢
        rw [hd, this]

/-- Helper: the pass of `Convert` gives the same result on descriptions with the
same commands. -/
theorem convert_commands_same (G : ConvertGeometry) (tresh : ℚ) (l1 : List path_descr) :
    ∀ (l2 : List path_descr) (nbPt : Nat) (cur start : Point), same_commands l1 l2 →
      convert_commands G tresh nbPt cur start l1 = convert_commands G tresh nbPt cur start l2 := by
  induction l1 with
  | nil =>
    intro l2 nbPt cur start h
    cases l2 with
    | nil => rfl
    | cons b bs => exact absurd h (by simp [same_commands])
  | cons a as ih =>
    intro l2 nbPt cur start h
    cases l2 with
    | nil => exact absurd h (by simp [same_commands])
    | cons b bs =>
      obtain ⟨hf, hs, he, hd, hrest⟩ := h
      have hcmd : convert_command G tresh cur start as a.data
          = convert_command G tresh cur start bs b.data := by
        rw [hd]
        cases hb : b.data with
        | bezierto p nb =>
          simp only [convert_command]
          rw [control_points_take_same as bs nb.toNat hrest]
        | moveto p => rfl
        | lineto p => rfl
        | cubicto p stD enD => rfl
        | intermbezierto p => rfl
        | arcto p rx ry angle large clockwise => rfl
        | close => rfl
        | forced => rfl
      simp only [convert_commands]
      rw [hcmd, ih bs _ _ _ hrest]
      have hab : ∀ k : Int, ({ a with associated := k } : path_descr)
          = { b with associated := k } := by
        intro k
        cases a with
        | mk f1 a1 s1 e1 d1 =>
          cases b with
          | mk f2 a2 s2 e2 d2 =>
            simp only at hf hs he hd
            subst hf
            subst hs
            subst he
            subst hd
            rfl
      rw [hab]

/-- Helper: the pass of `Convert` changes the commands in their `associated`
indices only. -/
theorem convert_commands_keeps (G : ConvertGeometry) (tresh : ℚ) (l : List path_descr) :
    ∀ (nbPt : Nat) (cur start : Point),
      same_commands (convert_commands G tresh nbPt cur start l).1 l := by
  induction l with
  | nil => intro nbPt cur start; simp [convert_commands, same_commands]
  | cons a as ih =>
    intro nbPt cur start
    simp only [convert_commands]
    exact ⟨rfl, rfl, rfl, rfl, ih _ _ _⟩

/-- C14: `Convert` with the same threshold twice in a row gives the same
polyline the second time as the first (the same points with the same tags, so
the same number of points), and the same path altogether. -/
theorem Convert_idempotent (G : ConvertGeometry) (treshhold : ℚ) (path : Path) :
    (Path.Convert G treshhold (Path.Convert G treshhold path)).pts
      = (Path.Convert G treshhold path).pts ∧
    (Path.Convert G treshhold (Path.Convert G treshhold path)).pts.length
      = (Path.Convert G treshhold path).pts.length ∧
    Path.Convert G treshhold (Path.Convert G treshhold path) = Path.Convert G treshhold path := by
  have h : Path.Convert G treshhold (Path.Convert G treshhold path)
      = Path.Convert G treshhold path := by
    unfold Path.Convert
    simp only []
    rw [convert_commands_same G treshhold _ path.descr_cmd 0 ⟨0, 0⟩ ⟨0, 0⟩
      (convert_commands_keeps G treshhold path.descr_cmd 0 ⟨0, 0⟩ ⟨0, 0⟩)]
  exact ⟨by rw [h], by rw [h], h⟩

/-- Sanity check of the model: with a spline pending, `IntermBezierTo` appends an
`interm_bezier` command and counts it in the pending `bezierto`. -/
theorem IntermBezierTo_pending_sample :
    Path.IntermBezierTo
      { sample_path with
        descr_flags := descr_doing_subpath ||| descr_adding_bezier
        pending_bezier_cmd := 1
        descr_cmd := [⟨descr_moveto, -1, 0, 1, .moveto ⟨0, 0⟩⟩,
                      ⟨descr_bezierto, -1, 0, 1, .bezierto ⟨4, 0⟩ 0⟩] } ⟨2, 2⟩
      = ({ sample_path with
            descr_flags := descr_doing_subpath ||| descr_adding_bezier
            pending_bezier_cmd := 1
            descr_cmd := [⟨descr_moveto, -1, 0, 1, .moveto ⟨0, 0⟩⟩,
                          ⟨descr_bezierto, -1, 0, 1, .bezierto ⟨4, 0⟩ 1⟩,
                          ⟨descr_interm_bezier, -1, 0, 1, .intermbezierto ⟨2, 2⟩⟩] },
         some 2) := by
  decide

/-- C15: on a path whose `descr_flags` has no `descr_adding_bezier` bit,
`IntermBezierTo` fails and the path is as before: no command is appended to the
description, so no `descr_interm_bezier` command is. -/
theorem IntermBezierTo_without_pending_bezier (path : Path) (ip : Point)
    (h : path.descr_flags &&& descr_adding_bezier = 0) :
    (path.IntermBezierTo ip).2 = none ∧
    (path.IntermBezierTo ip).1 = path ∧
    (path.IntermBezierTo ip).1.descr_cmd = path.descr_cmd := by
  unfold Path.IntermBezierTo
  simp [h]

/-- C15 witness: the sample path, which has a sub-path under construction and no
spline pending. -/
theorem IntermBezierTo_without_pending_bezier_witness :
    (sample_path.IntermBezierTo ⟨1, 1⟩).2 = none ∧
    (sample_path.IntermBezierTo ⟨1, 1⟩).1 = sample_path ∧
    (sample_path.IntermBezierTo ⟨1, 1⟩).1.descr_cmd = sample_path.descr_cmd :=
  IntermBezierTo_without_pending_bezier sample_path ⟨1, 1⟩ (by decide)

end Inkscape
